import Mathlib

/-!
# Milagro D-TA: order documents, the local index and the order listing

A shallow embedding of `pkg/common/common.go` and, from `pkg/defaultservice/order.go`, of
`Service.OrderList`, the default hooks and the ledger operations `Order1`, `Order2`,
`OrderSecret1` and `OrderSecret2`.

* Go functions that return `(string, error)` become functions that return a
  record holding the string and an `Option GoError` (`none` is Go's `nil`).
* A `*documents.OrderDoc` that a function mutates is returned in the record.
* The datastore handle `*datastore.Store` becomes a state `σ` that is passed in
  and returned, together with the operations `Datastore σ` of the backend.
* `time.Now()` is an argument.
* Go `int` is the 64-bit two's complement integer: products are wrapped.
-/

namespace Milagro

/-! ## Go values -/

/-- A Go `error` value, identified by its message. -/
structure GoError where
  msg : String
deriving DecidableEq, Repr

/-- A Go `[]byte`. -/
abbrev Bytes := List UInt8

/-- The call `errors.New(msg)`. -/
def errorsNew (msg : String) : GoError := ⟨msg⟩

/-- The call `errors.Wrap(err, msg)` of `github.com/pkg/errors` on a non-nil `err`. -/
def errorsWrap (err : GoError) (msg : String) : GoError := ⟨msg ++ ": " ++ err.msg⟩

/-- Wrap a mathematical integer into the range of a 64-bit Go `int`. -/
def wrapInt (x : Int) : Int := (x + 2 ^ 63) % 2 ^ 64 - 2 ^ 63

/-- Go multiplication of two `int` values. -/
def goMul (a b : Int) : Int := wrapInt (a * b)

/-- The instant returned by `time.Now()`: its Unix seconds and its UTC rendering in RFC 3339. -/
structure Time where
  Unix : Int
  RFC3339 : String
deriving DecidableEq, Repr

/-! ## Documents (`libs/documents`, the fields the embedded code touches) -/

/-- The identity document of a participant. -/
structure IDDoc where
  BLSPublicKey : Bytes
deriving DecidableEq, Repr

/-- Phase 2 of an order: the commitment. -/
structure OrderPart2 where
  CommitmentPublicKey : String
  PreviousOrderCID : String
  Timestamp : Int
deriving DecidableEq, Repr

/-- Phase 3 of an order: the redemption request. -/
structure OrderPart3 where
  Redemption : String
  PreviousOrderCID : String
  BeneficiaryEncryptedData : Bytes
  Timestamp : Int
deriving DecidableEq, Repr

/-- Phase 4 of an order: the released secret. -/
structure OrderPart4 where
  Secret : String
  PreviousOrderCID : String
  Timestamp : Int
deriving DecidableEq, Repr

/-- The order document; a nil phase pointer is `none`. -/
structure OrderDoc where
  OrderType : String
  PrincipalCID : String
  Reference : String
  BeneficiaryCID : String
  Timestamp : Int
  OrderPart2 : Option OrderPart2
  OrderPart3 : Option OrderPart3
  OrderPart4 : Option OrderPart4
deriving DecidableEq, Repr

/-- The recipients of an envelope, a Go `map[string]*documents.IDDoc`. -/
abbrev Recipients := List (String × IDDoc)

/-! ## Collaborators outside the embedded sources -/

/-- The operations of `*datastore.Store` on a store state `σ`. `Set` returns the state after
the call together with its error; nothing is assumed about either. -/
structure Datastore (σ : Type) where
  Set : σ → String → String → String → Option (List (String × String)) → σ × Option GoError
  Get : σ → String → String → Except GoError String
  ListKeys : σ → String → String → Int → Int → Bool → Except GoError (List String)

/-- The content-addressed store `ipfs.Connector`. -/
structure Connector where
  Add : Bytes → Except GoError String
  Get : String → Except GoError Bytes

/-- The key store `keystore.Store`. -/
structure KeyStore where
  Get : String → Except GoError Bytes

/-- The package-level functions `identity.GenerateBLSKeys` (public key, secret key) and
`documents.EncodeOrderDocument`. -/
structure Libs where
  GenerateBLSKeys : Bytes → Except GoError (Bytes × Bytes)
  EncodeOrderDocument : String → OrderDoc → Bytes → Recipients → Except GoError Bytes

/-! ## `pkg/common/common.go` -/

/-- What a call that returns `(string, error)` leaves behind: the store state, the string
and the error. -/
structure Outcome (σ : Type) where
  store : σ
  value : String
  err : Option GoError

/-- `WriteOrderToIPFS` writes the order document to IPFS and records its address in the
`"order"` index. -/
def WriteOrderToIPFS {σ : Type} (libs : Libs) (ds : Datastore σ) (now : Time) (nodeID : String)
    (ipfs : Connector) (store : σ) (keyStore : KeyStore) (_id : String) (order : OrderDoc)
    (recipients : Recipients) : Outcome σ :=
  match keyStore.Get "seed" with
  | .error _ => ⟨store, "", some (errorsNew "load secrets")⟩
  | .ok seed =>
    match libs.GenerateBLSKeys seed with
    | .error err => ⟨store, "", some err⟩
    | .ok (_, blsSecretKey) =>
      match libs.EncodeOrderDocument nodeID order blsSecretKey recipients with
      | .error err => ⟨store, "", some (errorsWrap err "Failed to encode IDDocument")⟩
      | .ok rawDoc =>
        match ipfs.Add rawDoc with
        | .error err => ⟨store, "", some (errorsWrap err "Failed to Save Raw Document into IPFS")⟩
        | .ok ipfsAddress =>
          match ds.Set store "order" order.Reference ipfsAddress (some [("time", now.RFC3339)]) with
          | (store1, some _) => ⟨store1, "", some (errorsNew "Save Order to store")⟩
          | (store1, none) => ⟨store1, ipfsAddress, none⟩

/-- What a phase-append call leaves behind: the order it mutated, the store state, the
returned content id and the returned error. -/
structure PhaseOutcome (σ : Type) where
  order : OrderDoc
  store : σ
  cid : String
  err : Option GoError

/-- `CreateAndStoreOrderPart2` adds part 2 to the order document and publishes it. -/
def CreateAndStoreOrderPart2 {σ : Type} (libs : Libs) (ds : Datastore σ) (now : Time)
    (ipfs : Connector) (store : σ) (keyStore : KeyStore) (order : OrderDoc)
    (orderPart1CID commitmentPublicKey nodeID : String) (recipients : Recipients) :
    PhaseOutcome σ :=
  let Part2 : OrderPart2 :=
    { CommitmentPublicKey := commitmentPublicKey
      PreviousOrderCID := orderPart1CID
      Timestamp := now.Unix }
  let order := { order with OrderPart2 := some Part2 }
  let w := WriteOrderToIPFS libs ds now nodeID ipfs store keyStore nodeID order recipients
  match w.err with
  | some err => ⟨order, w.store, "", some err⟩
  | none => ⟨order, w.store, w.value, none⟩

/-- `CreateAndStorePart3` adds part 3 "redemption request" to the order document. -/
def CreateAndStorePart3 {σ : Type} (libs : Libs) (ds : Datastore σ) (now : Time)
    (ipfs : Connector) (store : σ) (keyStore : KeyStore) (order : OrderDoc)
    (orderPart2CID nodeID : String) (beneficiaryEncryptedData : Bytes)
    (recipients : Recipients) : PhaseOutcome σ :=
  let redemptionRequest : OrderPart3 :=
    { Redemption := "SignedReferenceNumber"
      PreviousOrderCID := orderPart2CID
      BeneficiaryEncryptedData := beneficiaryEncryptedData
      Timestamp := now.Unix }
  let order := { order with OrderPart3 := some redemptionRequest }
  let w := WriteOrderToIPFS libs ds now nodeID ipfs store keyStore nodeID order recipients
  match w.err with
  | some _ => ⟨order, w.store, "", none⟩
  | none => ⟨order, w.store, w.value, none⟩

/-- `CreateAndStoreOrderPart4` adds part 4 to the order document and publishes it. -/
def CreateAndStoreOrderPart4 {σ : Type} (libs : Libs) (ds : Datastore σ) (now : Time)
    (ipfs : Connector) (store : σ) (keyStore : KeyStore) (order : OrderDoc)
    (commitmentPrivateKey orderPart3CID nodeID : String) (recipients : Recipients) :
    PhaseOutcome σ :=
  let Part4 : OrderPart4 :=
    { Secret := commitmentPrivateKey
      PreviousOrderCID := orderPart3CID
      Timestamp := now.Unix }
  let order := { order with OrderPart4 := some Part4 }
  let w := WriteOrderToIPFS libs ds now nodeID ipfs store keyStore nodeID order recipients
  match w.err with
  | some _ => ⟨order, w.store, "", none⟩
  | none => ⟨order, w.store, w.value, none⟩

/-! ### Seeds -/

/-- An `io.Reader`, given by the bytes it delivers before it ends. -/
structure Reader where
  bytes : Bytes
deriving DecidableEq, Repr

/-- The call `io.ReadFull(rng, buf)` for a buffer of `n` bytes: the bytes read, the reader
afterwards, and `io.EOF` or `io.ErrUnexpectedEOF` when the reader ends early. -/
def ioReadFull (rng : Reader) (n : Nat) : Bytes × Reader × Option GoError :=
  if n ≤ rng.bytes.length then (rng.bytes.take n, ⟨rng.bytes.drop n⟩, none)
  else if rng.bytes.length = 0 then ([], ⟨[]⟩, some (errorsNew "EOF"))
  else (rng.bytes, ⟨[]⟩, some (errorsNew "unexpected EOF"))

/-- The table `hextable` of `encoding/hex`. -/
def hextable : List Char := "0123456789abcdef".toList

/-- The call `hex.EncodeToString(src)`. -/
def hexEncodeToString (src : Bytes) : String :=
  String.mk (src.flatMap fun v => [hextable.getD (v.toNat / 16) '0', hextable.getD (v.toNat % 16) '0'])

/-- What `MakeRandomSeedAndStore` leaves behind: the store state, the reader, the returned
seed and the returned error. -/
structure SeedOutcome (σ : Type) where
  store : σ
  rng : Reader
  seedHex : String
  err : Option GoError

/-- `MakeRandomSeedAndStore` generates and stores a random seed. (The copy of the seed into
the local `byte32`, which is never read, is left out.) -/
def MakeRandomSeedAndStore {σ : Type} (ds : Datastore σ) (store : σ) (rng : Reader)
    (reference : String) : SeedOutcome σ :=
  match ioReadFull rng 32 with
  | (_, rng1, some err) => ⟨store, rng1, "", some err⟩
  | (seed, rng1, none) =>
    let seedHex := hexEncodeToString seed
    match ds.Set store "keySeed" reference seedHex none with
    | (store1, some err) => ⟨store1, rng1, "", some (errorsWrap err "store seed")⟩
    | (store1, none) => ⟨store1, rng1, seedHex, none⟩

/-- `RetrieveSeed` gets the seed from the key store. -/
def RetrieveSeed {σ : Type} (ds : Datastore σ) (store : σ) (reference : String) :
    String × Option GoError :=
  match ds.Get store "keySeed" reference with
  | .error _ => ("", none)
  | .ok seedHex => (seedHex, none)

/-! ## `Service.OrderList` of `pkg/defaultservice/order.go` -/

/-- The request of `OrderList`; `Page` and `PerPage` are Go `int`s. -/
structure OrderListRequest where
  Page : Int
  PerPage : Int
  SortBy : String
deriving DecidableEq, Repr

/-- The response of `OrderList`. -/
structure OrderListResponse where
  OrderReference : List String
deriving DecidableEq, Repr

/-- How a call ends when it gives no result: with a returned error, or with a run-time panic. -/
inductive Failure where
  | error (err : GoError)
  | panic
deriving DecidableEq, Repr

/-- The indices `start` and `stop` that `OrderList` computes for a listing of length `len`. -/
def OrderList.bounds (page perPage len : Int) : Int × Int :=
  if perPage ≠ 0 then
    if page < Int.tdiv len perPage then
      if goMul page perPage < len then (page, perPage) else (0, len)
    else (0, len)
  else (0, len)

/-- The slice expression `s[start:stop]`, which panics unless `0 ≤ start ≤ stop ≤ len(s)`
(the capacity of the slice is taken to be its length). -/
def goSlice (s : List String) (start stop : Int) : Option (List String) :=
  if 0 ≤ start ∧ start ≤ stop ∧ stop ≤ (s.length : Int) then
    some ((s.take stop.toNat).drop start.toNat)
  else none

/-- `OrderList` retrieves the list of orders. -/
def OrderList {σ : Type} (ds : Datastore σ) (store : σ) (req : OrderListRequest) :
    Except Failure OrderListResponse :=
  let page := req.Page
  let perPage := req.PerPage
  let sortBy := req.SortBy
  match ds.ListKeys store "order" "time" (goMul page perPage) perPage
      (decide (sortBy ≠ "dateCreatedAsc")) with
  | .error err => .error (.error err)
  | .ok orderref =>
    let b := OrderList.bounds page perPage (orderref.length : Int)
    match goSlice orderref b.1 b.2 with
    | none => .error .panic
    | some refs => .ok ⟨refs⟩

/-! ## The local index, from the specification -/

/-- One record of the local index: the data type, the key, the value and the metadata. -/
structure IndexEntry where
  datatype : String
  key : String
  value : String
  metadata : Option (List (String × String))
deriving DecidableEq, Repr

/-- The state of the in-memory index. -/
abbrev MemStore := List IndexEntry

/-- Lexicographic comparison of two strings by code point. -/
def lexLe : List Char → List Char → Bool
  | [], _ => true
  | _ :: _, [] => false
  | a :: as, b :: bs => a.toNat < b.toNat || (a.toNat == b.toNat && lexLe as bs)

/-- The value of a record under a named index (empty when the metadata lacks it). -/
def IndexEntry.indexValue (e : IndexEntry) (index : String) : String :=
  ((e.metadata.getD []).lookup index).getD ""

/-- Insert a record into a list ordered by the named index, after the records that are not
greater. -/
def insertByIndex (index : String) (e : IndexEntry) : List IndexEntry → List IndexEntry
  | [] => [e]
  | x :: xs =>
    if lexLe (x.indexValue index).toList (e.indexValue index).toList then
      x :: insertByIndex index e xs
    else e :: x :: xs

/-- Modelled from the spec: the keys of a data type in ascending order of the named index
(the listing is sort-order-selectable by creation time). -/
def MemStore.sortedKeys (s : MemStore) (datatype index : String) : List String :=
  (((s.filter fun e => e.datatype == datatype).reverse.foldl
    (fun acc e => insertByIndex index e acc) []).map fun e => e.key)

/-- Modelled from the spec: the listing of `datastore.Store.ListKeys`, whose code is not
among the embedded sources: of the keys in the requested order, those from offset `skip`,
at most `limit` of them; a `limit` that is not positive does not bound the listing
(`perPage=0` returns all references). -/
def listPage (sorted : List String) (skip limit : Int) (reverse : Bool) : List String :=
  let ordered := if reverse then sorted.reverse else sorted
  let rest := ordered.drop skip.toNat
  if 0 < limit then rest.take limit.toNat else rest

/-- Modelled from the spec: the write of a record, which replaces the record of the same
data type and key (the index holds the latest content id of a reference). -/
def MemStore.set (s : MemStore) (datatype key value : String)
    (metadata : Option (List (String × String))) : MemStore :=
  s.filter (fun e => !(e.datatype == datatype && e.key == key)) ++ [⟨datatype, key, value, metadata⟩]

/-- Modelled from the spec: the point lookup of a record, which fails when the key is
unknown. -/
def MemStore.get (s : MemStore) (datatype key : String) : Except GoError String :=
  match s.find? fun e => e.datatype == datatype && e.key == key with
  | some e => .ok e.value
  | none => .error (errorsNew "key not found")

/-- Modelled from the spec: the local persisted index `datastore.Store`, whose code is not
among the embedded sources: it maps a reference to its latest content id with metadata,
supports point lookup by reference (`NotFound` when the reference is unknown) and a
paginated, sort-order-selectable listing; a write records the value under the key,
replacing the one on record. -/
def memDatastore : Datastore MemStore where
  Set := fun s datatype key value metadata => (s.set datatype key value metadata, none)
  Get := fun s datatype key => s.get datatype key
  ListKeys := fun s datatype index skip limit reverse =>
    .ok (listPage (s.sortedKeys datatype index) skip limit reverse)

/-- An index whose backend refuses every write and leaves the state as it is. -/
def readOnlyDatastore : Datastore MemStore where
  Set := fun s _ _ _ _ => (s, some (errorsNew "read-only store"))
  Get := fun s datatype key => s.get datatype key
  ListKeys := fun s datatype index skip limit reverse =>
    .ok (listPage (s.sortedKeys datatype index) skip limit reverse)

/-- The references at positions `[a, b)` of a list. -/
def positions (l : List String) (a b : Nat) : List String :=
  (List.range (b - a)).filterMap fun i => l[a + i]?

/-- The keys in the order a request asks for: ascending by creation time for
`"dateCreatedAsc"`, descending otherwise. -/
def requestedOrder (sorted : List String) (sortBy : String) : List String :=
  if sortBy ≠ "dateCreatedAsc" then sorted.reverse else sorted

/-! ## Fixtures -/

/-- A key store that holds a seed. -/
def fxKeyStore : KeyStore := ⟨fun _ => .ok [7]⟩

/-- A key store that holds nothing. -/
def fxEmptyKeyStore : KeyStore := ⟨fun _ => .error (errorsNew "key not found")⟩

/-- Key derivation and encoding that succeed. -/
def fxLibs : Libs := ⟨fun seed => .ok (seed, seed), fun _ _ _ _ => .ok [123, 125]⟩

/-- A content store that accepts every envelope. -/
def fxIpfs : Connector := ⟨fun _ => .ok "QmNew", fun _ => .error (errorsNew "not found")⟩

/-- An instant. -/
def fxNow : Time := ⟨1570000000, "2019-10-02T07:06:40Z"⟩

/-- An order in phase 1: no phase revision is present. -/
def fxOrder1 : OrderDoc :=
  { OrderType := "Safeguard_Secret", PrincipalCID := "QmPrincipal", Reference := "ref-1",
    BeneficiaryCID := "QmBeneficiary", Timestamp := 1569990000,
    OrderPart2 := none, OrderPart3 := none, OrderPart4 := none }

/-- An order in phase 2: the commitment is present. -/
def fxOrder2 : OrderDoc :=
  { fxOrder1 with OrderPart2 := some ⟨"oldKey", "QmPart1", 1569995000⟩ }

/-- An order in phase 4: every phase revision is present. -/
def fxOrder4 : OrderDoc :=
  { fxOrder2 with
    OrderPart3 := some ⟨"SignedReferenceNumber", "QmOld2", [9], 1569996000⟩
    OrderPart4 := some ⟨"oldSecret", "QmOld3", 1569997000⟩ }

/-- An index holding three orders, written out of their order in time, and a seed. -/
def fxIndex : MemStore :=
  [ ⟨"order", "ref-b", "QmB", some [("time", "2019-10-02T08:00:00Z")]⟩,
    ⟨"keySeed", "alice", "00ff", none⟩,
    ⟨"order", "ref-c", "QmC", some [("time", "2019-10-03T08:00:00Z")]⟩,
    ⟨"order", "ref-a", "QmA", some [("time", "2019-10-01T08:00:00Z")]⟩ ]

/-- The order whose reference is on record in `fxIndex` as `"ref-a"`. -/
def fxOrderA : OrderDoc := { fxOrder1 with Reference := "ref-a" }

/-- A random source that delivers 34 bytes. -/
def fxRng : Reader := ⟨List.replicate 32 171 ++ [1, 2]⟩

/-- A random source that ends after 5 bytes. -/
def fxShortRng : Reader := ⟨[1, 2, 3, 4, 5]⟩

/-- An index whose listing returns every key of the data type, whatever the offset and the
limit it is asked for. -/
def unboundedDatastore : Datastore MemStore where
  Set := fun s datatype key value metadata => (s.set datatype key value metadata, none)
  Get := fun s datatype key => s.get datatype key
  ListKeys := fun s datatype index _ _ reverse =>
    .ok (if reverse then (s.sortedKeys datatype index).reverse else s.sortedKeys datatype index)

/-! ## Retrieval, recipients and new orders (`pkg/common/common.go`) -/

/-- A Go `map[string]string`; the nil map is `none`. -/
abbrev Extension := Option (List (String × String))

/-- The package-level functions `documents.DecodeIDDocument`, `documents.DecodeOrderDocument`
(each gives the document it filled and its error), `documents.NewOrderDoc` and
`cryptowallet.PublicKeyFromPrivate` (its two results and its error). -/
structure Codecs where
  DecodeIDDocument : Bytes → String → IDDoc × Option GoError
  DecodeOrderDocument : Bytes → String → Bytes → String → Bytes → OrderDoc × Option GoError
  NewOrderDoc : OrderDoc
  PublicKeyFromPrivate : String → String × String × Option GoError

/-- What a retrieval returns: `nil` and the error of the content store, or the document that
the decoder filled together with the error of the decoder. -/
inductive Retrieved (α : Type) where
  | failed (err : GoError)
  | decoded (doc : α) (err : Option GoError)
deriving DecidableEq, Repr

/-- The error that a retrieval returns. -/
def Retrieved.err {α : Type} : Retrieved α → Option GoError
  | .failed err => some err
  | .decoded _ err => err

/-- `CreateNewDepositOrder` generates an empty new deposit order with a random reference;
`reference` is what `uuid.NewUUID()` returned. -/
def CreateNewDepositOrder (codecs : Codecs) (now : Time) (reference : Except GoError String)
    (BeneficiaryIDDocumentCID nodeID : String) : Except GoError OrderDoc :=
  match reference with
  | .error err => .error err
  | .ok reference =>
    let order := codecs.NewOrderDoc
    let order := { order with OrderType := "Safeguard_Secret" }
    let order := { order with PrincipalCID := nodeID }
    let order := { order with Reference := reference }
    let order := { order with BeneficiaryCID := BeneficiaryIDDocumentCID }
    let order := { order with Timestamp := now.Unix }
    .ok order

/-- `RetrieveOrderFromIPFS` retrieves an order from IPFS and decodes it. -/
def RetrieveOrderFromIPFS (codecs : Codecs) (ipfs : Connector) (ipfsID : String)
    (sikeSK : Bytes) (recipientID : String) (sendersBlsPK : Bytes) : Retrieved OrderDoc :=
  match ipfs.Get ipfsID with
  | .error err => .failed err
  | .ok rawDocO =>
    let r := codecs.DecodeOrderDocument rawDocO ipfsID sikeSK recipientID sendersBlsPK
    .decoded r.1 r.2

/-- `RetrieveIDDocFromIPFS` finds and parses the identity document. -/
def RetrieveIDDocFromIPFS (codecs : Codecs) (ipfs : Connector) (ipfsID : String) :
    Retrieved IDDoc :=
  match ipfs.Get ipfsID with
  | .error err => .failed err
  | .ok rawDocI =>
    let r := codecs.DecodeIDDocument rawDocI ipfsID
    .decoded r.1 r.2

/-- The assignment `m[k] = v` on a Go map, kept as a list with one pair for each key. -/
def goMapSet (m : Recipients) (k : String) (v : IDDoc) : Recipients :=
  m.filter (fun p => !(p.1 == k)) ++ [(k, v)]

/-- The map literal `map[string]*documents.IDDoc{k1: v1, k2: v2}`, whose elements are
assigned in their order. -/
def goMapLiteral2 (k1 : String) (v1 : IDDoc) (k2 : String) (v2 : IDDoc) : Recipients :=
  goMapSet (goMapSet [] k1 v1) k2 v2

/-- `BuildRecipientList` builds a list of recipients who are able to decrypt the encrypted
envelope; a nil map is `none`. -/
def BuildRecipientList (codecs : Codecs) (ipfs : Connector)
    (localNodeDocCID remoteNodeDocCID : String) : Option Recipients × Option GoError :=
  match RetrieveIDDocFromIPFS codecs ipfs remoteNodeDocCID with
  | .failed err => (none, some err)
  | .decoded _ (some err) => (none, some err)
  | .decoded remoteNodeDoc none =>
    match RetrieveIDDocFromIPFS codecs ipfs localNodeDocCID with
    | .failed err => (none, some err)
    | .decoded _ (some err) => (none, some err)
    | .decoded localNodeDoc none =>
      (some (goMapLiteral2 remoteNodeDocCID remoteNodeDoc localNodeDocCID localNodeDoc), none)

/-! ## The default hooks of `pkg/defaultservice/order.go` -/

/-- The request of `Order1`. -/
structure OrderRequest where
  BeneficiaryIDDocumentCID : String
  Extension : Extension
deriving DecidableEq, Repr

/-- The request of `OrderSecret1`. -/
structure OrderSecretRequest where
  OrderReference : String
  BeneficiaryIDDocumentCID : String
  Extension : Extension
deriving DecidableEq, Repr

/-- The four results of `ProduceFinalSecret`. -/
structure FinalSecret where
  secret : String
  commitment : String
  extension : Extension
  err : Option GoError
deriving DecidableEq, Repr

/-- `ValidateOrderRequest` returns an error if the request values are invalid. -/
def ValidateOrderRequest (_req : OrderRequest) : Option GoError := none

/-- `ValidateOrderSecretRequest` validates the fields of the order secret request. -/
def ValidateOrderSecretRequest (_req : OrderSecretRequest) (_order : OrderDoc) :
    Option GoError := none

/-- `PrepareOrderPart1` is called before the order is sent: the order as the hook leaves it,
the extension and the error. -/
def PrepareOrderPart1 (order : OrderDoc) (_reqExtension : Extension) :
    OrderDoc × Extension × Option GoError := (order, none, none)

/-- `PrepareOrderResponse` gets the updated order and returns the commitment and the
extension; reading the commitment of an order without part 2 is a nil dereference (`none`). -/
def PrepareOrderResponse (orderPart2 : OrderDoc) (_reqExtension _fulfillExtension : Extension) :
    Option (String × Extension × Option GoError) :=
  match orderPart2.OrderPart2 with
  | none => none
  | some part2 => some (part2.CommitmentPublicKey, none, none)

/-- `ProduceBeneficiaryEncryptedData`: the encrypted bytes, the extension and the error. -/
def ProduceBeneficiaryEncryptedData (_blsSK : Bytes) (_order : OrderDoc)
    (_req : OrderSecretRequest) : Bytes × Extension × Option GoError := ([], none, none)

/-- `ProduceFinalSecret`; reading the secret of an order without part 4 is a nil
dereference (`none`). -/
def ProduceFinalSecret (codecs : Codecs) (_seed _sikeSK : Bytes) (_order orderPart4 : OrderDoc)
    (_beneficiaryIDDocumentCID : String) : Option FinalSecret :=
  match orderPart4.OrderPart4 with
  | none => none
  | some part4 =>
    let finalPrivateKey := part4.Secret
    let r := codecs.PublicKeyFromPrivate finalPrivateKey
    some ⟨finalPrivateKey, r.1, none, r.2.2⟩

/-- Decoders that give fixed documents, a deterministic key derivation and the empty order. -/
def fxCodecs : Codecs where
  DecodeIDDocument := fun rawDoc _ => (⟨rawDoc⟩, none)
  DecodeOrderDocument := fun _ _ _ _ _ => (fxOrder4, none)
  NewOrderDoc := ⟨"", "", "", "", 0, none, none, none⟩
  PublicKeyFromPrivate := fun sk => ("pub-of-" ++ sk, "", none)

/-- A content store that holds the identity documents of two nodes and the order
revisions. -/
def fxIpfsDocs : Connector where
  Add := fun _ => .ok "QmNew"
  Get := fun cid =>
    if cid = "QmNode" then .ok [1] else if cid = "QmMaster" then .ok [2]
    else if cid = "QmOrder" then .ok [3]
    else .error (errorsNew "not found")

/-! ## The ledger operations of `pkg/defaultservice/order.go` -/

/-- The processor tags `api.TXFulfillRequest`, `api.TXFulfillOrderSecretRequest` and
`api.TXOrderSecretResponse`. -/
inductive Processor where
  | TXFulfillRequest
  | TXFulfillOrderSecretRequest
  | TXOrderSecretResponse
deriving DecidableEq, Repr

/-- The ledger transaction `api.BlockChainTX`, with the fields that the operations set. -/
structure BlockChainTX where
  Processor : Processor
  SenderID : String
  RecipientID : List String
  Payload : Bytes
  Tags : Extension
deriving DecidableEq, Repr

/-- The payload of the transaction of `Order1`. -/
structure FulfillOrderRequest where
  DocumentCID : String
  OrderPart1CID : String
  Extension : Extension
deriving DecidableEq, Repr

/-- The request of `Order2`. -/
structure FulfillOrderResponse where
  OrderPart2CID : String
  Extension : Extension
deriving DecidableEq, Repr

/-- The payload of the transaction of `Order2`. -/
structure OrderResponse where
  OrderReference : String
  Commitment : String
  CreatedAt : Int
  Extension : Extension
deriving DecidableEq, Repr

/-- The payload of the transaction of `OrderSecret1`. -/
structure FulfillOrderSecretRequest where
  SenderDocumentCID : String
  OrderPart3CID : String
  Extension : Extension
deriving DecidableEq, Repr

/-- The request of `OrderSecret2`. -/
structure FulfillOrderSecretResponse where
  OrderPart4CID : String
deriving DecidableEq, Repr

/-- The payload of the transaction of `OrderSecret2`. -/
structure OrderSecretResponse where
  Secret : String
  Commitment : String
  OrderReference : String
  Extension : Extension
deriving DecidableEq, Repr

/-- The hooks `s.Plugin` of the service. A hook that reads through a pointer which may be
nil gives `none` for the nil dereference; `PrepareOrderPart1` also gives the order as it
leaves it. -/
structure Plugin where
  ValidateOrderRequest : OrderRequest → Option GoError
  ValidateOrderSecretRequest : OrderSecretRequest → OrderDoc → Option GoError
  PrepareOrderPart1 : OrderDoc → Extension → OrderDoc × Extension × Option GoError
  PrepareOrderResponse : OrderDoc → Extension → Extension →
    Option (String × Extension × Option GoError)
  ProduceBeneficiaryEncryptedData : Bytes → OrderDoc → OrderSecretRequest →
    Bytes × Extension × Option GoError
  ProduceFinalSecret : Bytes → Bytes → OrderDoc → OrderDoc → String → Option FinalSecret

/-- The hooks that `order.go` itself defines on the service. -/
def defaultPlugin (codecs : Codecs) : Plugin where
  ValidateOrderRequest := ValidateOrderRequest
  ValidateOrderSecretRequest := ValidateOrderSecretRequest
  PrepareOrderPart1 := PrepareOrderPart1
  PrepareOrderResponse := PrepareOrderResponse
  ProduceBeneficiaryEncryptedData := ProduceBeneficiaryEncryptedData
  ProduceFinalSecret := ProduceFinalSecret codecs

/-- The results of `common.RetrieveIdentitySecrets` other than its error. -/
structure IdentitySecrets where
  name : String
  seed : Bytes
  blsSK : Bytes
  sikeSK : Bytes
deriving DecidableEq, Repr

/-- The package-level functions that the operations call and whose code is not among the
embedded sources: the libraries, `common.RetrieveIdentitySecrets`, `json.Marshal` at the
four payload types (its error is discarded by the callers) and `tendermint.PostToChain`. -/
structure Packages (σ : Type) where
  libs : Libs
  codecs : Codecs
  RetrieveIdentitySecrets : σ → String → IdentitySecrets × Option GoError
  MarshalFulfillOrderRequest : FulfillOrderRequest → Bytes
  MarshalOrderResponse : OrderResponse → Bytes
  MarshalFulfillOrderSecretRequest : FulfillOrderSecretRequest → Bytes
  MarshalOrderSecretResponse : OrderSecretResponse → Bytes
  PostToChain : BlockChainTX → String → String × Option GoError

/-- The service: its handles, its hooks and the two node ids. `order.go` calls the publish
helpers without the key store that `common.go` declares for them; the key store of the
service is passed. -/
structure Service (σ : Type) where
  Ipfs : Connector
  Store : Datastore σ
  KeyStore : KeyStore
  Plugin : Plugin
  nodeID : String
  masterFiduciaryNodeID : String

/-- What a ledger operation leaves behind: the store state, the transactions it handed to
`PostToChain` with the method name, the returned string and the returned error. -/
structure ChainOutcome (σ : Type) where
  store : σ
  posted : List (BlockChainTX × String)
  value : String
  err : Option GoError

/-- `Order1`; `reference` is what `uuid.NewUUID()` returns. -/
def Order1 {σ : Type} (pkg : Packages σ) (s : Service σ) (now : Time)
    (reference : Except GoError String) (store : σ) (req : OrderRequest) : ChainOutcome σ :=
  match s.Plugin.ValidateOrderRequest req with
  | some err => ⟨store, [], "", some err⟩
  | none =>
    let beneficiaryIDDocumentCID := req.BeneficiaryIDDocumentCID
    let nodeID := s.nodeID
    match BuildRecipientList pkg.codecs s.Ipfs nodeID s.masterFiduciaryNodeID with
    | (_, some err) => ⟨store, [], "", some err⟩
    | (recipientList, none) =>
      match CreateNewDepositOrder pkg.codecs now reference beneficiaryIDDocumentCID nodeID with
      | .error err => ⟨store, [], "", some err⟩
      | .ok order =>
        match s.Plugin.PrepareOrderPart1 order req.Extension with
        | (_, _, some err) => ⟨store, [], "", some err⟩
        | (order, fulfillExtension, none) =>
          let w := WriteOrderToIPFS pkg.libs s.Store now nodeID s.Ipfs store s.KeyStore nodeID
            order (recipientList.getD [])
          match w.err with
          | some err => ⟨w.store, [], "", some err⟩
          | none =>
            let orderPart1CID := w.value
            let request : FulfillOrderRequest :=
              { DocumentCID := nodeID
                OrderPart1CID := orderPart1CID
                Extension := fulfillExtension }
            let marshaledRequest := pkg.MarshalFulfillOrderRequest request
            let chainTX : BlockChainTX :=
              { Processor := .TXFulfillRequest
                SenderID := nodeID
                RecipientID := [s.masterFiduciaryNodeID, nodeID]
                Payload := marshaledRequest
                Tags := none }
            ⟨w.store, [(chainTX, "Order1")], order.Reference, none⟩

/-- `Order2`; a nil dereference in a hook is `none`. -/
def Order2 {σ : Type} (pkg : Packages σ) (s : Service σ) (now : Time) (store : σ)
    (req : FulfillOrderResponse) : Option (ChainOutcome σ) :=
  let nodeID := s.nodeID
  match RetrieveIDDocFromIPFS pkg.codecs s.Ipfs s.masterFiduciaryNodeID with
  | .failed err => some ⟨store, [], "", some err⟩
  | .decoded _ (some err) => some ⟨store, [], "", some err⟩
  | .decoded remoteIDDoc none =>
    match pkg.RetrieveIdentitySecrets store nodeID with
    | (_, some err) => some ⟨store, [], "", some err⟩
    | (secrets, none) =>
      let sikeSK := secrets.sikeSK
      match (RetrieveOrderFromIPFS pkg.codecs s.Ipfs req.OrderPart2CID sikeSK nodeID
          remoteIDDoc.BLSPublicKey) with
      | .failed err =>
        some ⟨store, [], "", some (errorsWrap err "Fail to retrieve Order from IPFS")⟩
      | .decoded _ (some err) =>
        some ⟨store, [], "", some (errorsWrap err "Fail to retrieve Order from IPFS")⟩
      | .decoded updatedOrder none =>
        match s.Plugin.PrepareOrderResponse updatedOrder req.Extension req.Extension with
        | none => none
        | some (_, _, some err) =>
          some ⟨store, [], "", some (errorsWrap err "Generating Final Public Key")⟩
        | some (commitment, extension, none) =>
          let response : OrderResponse :=
            { OrderReference := updatedOrder.Reference
              Commitment := commitment
              CreatedAt := now.Unix
              Extension := extension }
          let marshaledRequest := pkg.MarshalOrderResponse response
          let chainTX : BlockChainTX :=
            { Processor := .TXOrderSecretResponse
              SenderID := nodeID
              RecipientID := [s.masterFiduciaryNodeID, nodeID]
              Payload := marshaledRequest
              Tags := some [("reference", updatedOrder.Reference)] }
          let r := pkg.PostToChain chainTX "Order2"
          some ⟨store, [(chainTX, "Order2")], r.1, r.2⟩

/-- `OrderSecret1`. -/
def OrderSecret1 {σ : Type} (pkg : Packages σ) (s : Service σ) (now : Time) (store : σ)
    (req : OrderSecretRequest) : ChainOutcome σ :=
  let orderReference := req.OrderReference
  match s.Store.Get store "order" orderReference with
  | .error err => ⟨store, [], "", some err⟩
  | .ok orderPart2CID =>
    let nodeID := s.nodeID
    match BuildRecipientList pkg.codecs s.Ipfs nodeID s.masterFiduciaryNodeID with
    | (_, some err) => ⟨store, [], "", some err⟩
    | (recipientList, none) =>
      match RetrieveIDDocFromIPFS pkg.codecs s.Ipfs s.masterFiduciaryNodeID with
      | .failed err => ⟨store, [], "", some err⟩
      | .decoded _ (some err) => ⟨store, [], "", some err⟩
      | .decoded remoteIDDoc none =>
        match pkg.RetrieveIdentitySecrets store nodeID with
        | (_, some err) => ⟨store, [], "", some err⟩
        | (secrets, none) =>
          let blsSK := secrets.blsSK
          let sikeSK := secrets.sikeSK
          match (RetrieveOrderFromIPFS pkg.codecs s.Ipfs orderPart2CID sikeSK nodeID
              remoteIDDoc.BLSPublicKey) with
          | .failed err =>
            ⟨store, [], "", some (errorsWrap err "Fail to retrieve Order from IPFS")⟩
          | .decoded _ (some err) =>
            ⟨store, [], "", some (errorsWrap err "Fail to retrieve Order from IPFS")⟩
          | .decoded order none =>
            match s.Plugin.ValidateOrderSecretRequest req order with
            | some err => ⟨store, [], "", some err⟩
            | none =>
              match s.Plugin.ProduceBeneficiaryEncryptedData blsSK order req with
              | (_, _, some err) => ⟨store, [], "", some err⟩
              | (beneficiaryEncryptedData, extension, none) =>
                let order :=
                  if req.BeneficiaryIDDocumentCID ≠ "" then
                    { order with BeneficiaryCID := req.BeneficiaryIDDocumentCID }
                  else order
                let p := CreateAndStorePart3 pkg.libs s.Store now s.Ipfs store s.KeyStore order
                  orderPart2CID nodeID beneficiaryEncryptedData (recipientList.getD [])
                match p.err with
                | some err => ⟨p.store, [], "", some err⟩
                | none =>
                  let orderPart3CID := p.cid
                  let request : FulfillOrderSecretRequest :=
                    { SenderDocumentCID := nodeID
                      OrderPart3CID := orderPart3CID
                      Extension := extension }
                  let marshaledRequest := pkg.MarshalFulfillOrderSecretRequest request
                  let chainTX : BlockChainTX :=
                    { Processor := .TXFulfillOrderSecretRequest
                      SenderID := nodeID
                      RecipientID := [s.masterFiduciaryNodeID, nodeID]
                      Payload := marshaledRequest
                      Tags := none }
                  let r := pkg.PostToChain chainTX "OrderSecret1"
                  ⟨p.store, [(chainTX, "OrderSecret1")], r.1, r.2⟩

/-- `OrderSecret2`; a nil dereference in a hook is `none`. -/
def OrderSecret2 {σ : Type} (pkg : Packages σ) (s : Service σ) (store : σ)
    (req : FulfillOrderSecretResponse) : Option (ChainOutcome σ) :=
  let nodeID := s.nodeID
  match pkg.RetrieveIdentitySecrets store nodeID with
  | (_, some err) => some ⟨store, [], "", some err⟩
  | (secrets, none) =>
    let sikeSK := secrets.sikeSK
    match RetrieveIDDocFromIPFS pkg.codecs s.Ipfs s.masterFiduciaryNodeID with
    | .failed err => some ⟨store, [], "", some err⟩
    | .decoded _ (some err) => some ⟨store, [], "", some err⟩
    | .decoded remoteIDDoc none =>
      match (RetrieveOrderFromIPFS pkg.codecs s.Ipfs req.OrderPart4CID sikeSK nodeID
          remoteIDDoc.BLSPublicKey) with
      | .failed err => some ⟨store, [], "", some err⟩
      | .decoded _ (some err) => some ⟨store, [], "", some err⟩
      | .decoded orderPart4 none =>
        let beneficiaryCID := orderPart4.BeneficiaryCID
        match pkg.RetrieveIdentitySecrets store beneficiaryCID with
        | (_, some err) => some ⟨store, [], "", some err⟩
        | (beneficiarySecrets, none) =>
          let beneficiariesSeed := beneficiarySecrets.seed
          let beneficiariesSikeSK := beneficiarySecrets.sikeSK
          match s.Plugin.ProduceFinalSecret beneficiariesSeed beneficiariesSikeSK orderPart4
              orderPart4 beneficiaryCID with
          | none => none
          | some final =>
            match final.err with
            | some err => some ⟨store, [], "", some err⟩
            | none =>
              let request : OrderSecretResponse :=
                { Secret := final.secret
                  Commitment := final.commitment
                  OrderReference := orderPart4.Reference
                  Extension := final.extension }
              let marshaledRequest := pkg.MarshalOrderSecretResponse request
              let chainTX : BlockChainTX :=
                { Processor := .TXOrderSecretResponse
                  SenderID := nodeID
                  RecipientID := [s.masterFiduciaryNodeID, nodeID]
                  Payload := marshaledRequest
                  Tags := none }
              let r := pkg.PostToChain chainTX "OrderSecret2"
              some ⟨store, [(chainTX, "OrderSecret2")], r.1, r.2⟩

/-- Packages whose calls succeed; the ledger accepts every transaction. -/
def fxPackages : Packages MemStore where
  libs := fxLibs
  codecs := fxCodecs
  RetrieveIdentitySecrets := fun _ id => (⟨id, [7], [8], [9]⟩, none)
  MarshalFulfillOrderRequest := fun _ => [1]
  MarshalOrderResponse := fun _ => [2]
  MarshalFulfillOrderSecretRequest := fun _ => [3]
  MarshalOrderSecretResponse := fun _ => [4]
  PostToChain := fun _ _ => ("tx-1", none)

/-- Packages whose calls succeed, except that the ledger refuses every transaction. -/
def fxPackagesLedgerDown : Packages MemStore :=
  { fxPackages with PostToChain := fun _ _ => ("", some (errorsNew "broadcast failed")) }

/-- A service on the in-memory index with the default hooks. -/
def fxService : Service MemStore where
  Ipfs := fxIpfsDocs
  Store := memDatastore
  KeyStore := fxKeyStore
  Plugin := defaultPlugin fxCodecs
  nodeID := "QmNode"
  masterFiduciaryNodeID := "QmMaster"

/-- An index that holds the order `"ref-1"` at the content id `"QmOrder"`. -/
def fxOrderIndex : MemStore := [⟨"order", "ref-1", "QmOrder", none⟩]

/-- An index whose backend writes the record and then reports an error. -/
def leakyDatastore : Datastore MemStore where
  Set := fun s datatype key value metadata =>
    (s.set datatype key value metadata, some (errorsNew "write not confirmed"))
  Get := fun s datatype key => s.get datatype key
  ListKeys := fun s datatype index skip limit reverse =>
    .ok (listPage (s.sortedKeys datatype index) skip limit reverse)

/-- A listing of five keys. -/
def fxFiveKeys : List String := ["ref-a", "ref-b", "ref-c", "ref-d", "ref-e"]

/-! # Theorems -/

/-! ## The publish step -/

/-- The ways `WriteOrderToIPFS` ends: it fails before the index write and returns the store
it was given, or it reaches the index write and returns the store that `Set` left. -/
theorem WriteOrderToIPFS_cases {σ : Type} (libs : Libs) (ds : Datastore σ) (now : Time)
    (nodeID : String) (ipfs : Connector) (store : σ) (keyStore : KeyStore) (id : String)
    (order : OrderDoc) (recipients : Recipients) :
    ((WriteOrderToIPFS libs ds now nodeID ipfs store keyStore id order recipients).store = store ∧
      (WriteOrderToIPFS libs ds now nodeID ipfs store keyStore id order recipients).value = "" ∧
      (WriteOrderToIPFS libs ds now nodeID ipfs store keyStore id order recipients).err ≠ none) ∨
    (∃ seed keys rawDoc ipfsAddress,
      keyStore.Get "seed" = .ok seed ∧ libs.GenerateBLSKeys seed = .ok keys ∧
      libs.EncodeOrderDocument nodeID order keys.2 recipients = .ok rawDoc ∧
      ipfs.Add rawDoc = .ok ipfsAddress ∧
      (WriteOrderToIPFS libs ds now nodeID ipfs store keyStore id order recipients).store =
        (ds.Set store "order" order.Reference ipfsAddress (some [("time", now.RFC3339)])).1 ∧
      (((ds.Set store "order" order.Reference ipfsAddress (some [("time", now.RFC3339)])).2 = none ∧
          (WriteOrderToIPFS libs ds now nodeID ipfs store keyStore id order recipients).value
            = ipfsAddress ∧
          (WriteOrderToIPFS libs ds now nodeID ipfs store keyStore id order recipients).err = none) ∨
        ((ds.Set store "order" order.Reference ipfsAddress (some [("time", now.RFC3339)])).2 ≠ none ∧
          (WriteOrderToIPFS libs ds now nodeID ipfs store keyStore id order recipients).value = "" ∧
          (WriteOrderToIPFS libs ds now nodeID ipfs store keyStore id order recipients).err
            ≠ none))) := by
  cases h1 : keyStore.Get "seed" with
  | error e => left; simp [WriteOrderToIPFS, h1]
  | ok seed =>
    cases h2 : libs.GenerateBLSKeys seed with
    | error e => left; simp [WriteOrderToIPFS, h1, h2]
    | ok keys =>
      obtain ⟨pk, sk⟩ := keys
      cases h3 : libs.EncodeOrderDocument nodeID order sk recipients with
      | error e => left; simp [WriteOrderToIPFS, h1, h2, h3]
      | ok rawDoc =>
        cases h4 : ipfs.Add rawDoc with
        | error e => left; simp [WriteOrderToIPFS, h1, h2, h3, h4]
        | ok ipfsAddress =>
          right
          refine ⟨seed, (pk, sk), rawDoc, ipfsAddress, rfl, h2, h3, h4, ?_⟩
          rcases hs : ds.Set store "order" order.Reference ipfsAddress
            (some [("time", now.RFC3339)]) with ⟨store1, _ | e⟩
          · simp [WriteOrderToIPFS, h1, h2, h3, h4, hs]
          · simp [WriteOrderToIPFS, h1, h2, h3, h4, hs]

/-! ## The phase-append operations -/

/-- C1 (counterexample): on an order in phase 1, which has neither part 2 nor part 3,
`CreateAndStorePart3` and `CreateAndStoreOrderPart4` return a content id and a nil error and
attach their revision: no `OutOfOrder` error is raised. -/
theorem append_without_predecessor_counterexample :
    fxOrder1.OrderPart2 = none ∧ fxOrder1.OrderPart3 = none ∧
    (CreateAndStorePart3 fxLibs memDatastore fxNow fxIpfs [] fxKeyStore fxOrder1
      "QmPart2" "QmNode" [1, 2] []).err = none ∧
    (CreateAndStorePart3 fxLibs memDatastore fxNow fxIpfs [] fxKeyStore fxOrder1
      "QmPart2" "QmNode" [1, 2] []).cid = "QmNew" ∧
    (CreateAndStorePart3 fxLibs memDatastore fxNow fxIpfs [] fxKeyStore fxOrder1
      "QmPart2" "QmNode" [1, 2] []).order.OrderPart3
        = some ⟨"SignedReferenceNumber", "QmPart2", [1, 2], 1570000000⟩ ∧
    (CreateAndStoreOrderPart4 fxLibs memDatastore fxNow fxIpfs [] fxKeyStore fxOrder1
      "secret" "QmPart3" "QmNode" []).err = none ∧
    (CreateAndStoreOrderPart4 fxLibs memDatastore fxNow fxIpfs [] fxKeyStore fxOrder1
      "secret" "QmPart3" "QmNode" []).cid = "QmNew" ∧
    (CreateAndStoreOrderPart4 fxLibs memDatastore fxNow fxIpfs [] fxKeyStore fxOrder1
      "secret" "QmPart3" "QmNode" []).order.OrderPart4
        = some ⟨"secret", "QmPart3", 1570000000⟩ := by
  refine ⟨rfl, rfl, rfl, rfl, rfl, rfl, rfl, rfl⟩

/-- C1 (amended): the phase-append operations do not look at the predecessor revision. For
every order, also one that lacks the predecessor, each of them attaches its revision, and
when publishing the updated order succeeds it returns the published content id and a nil
error. -/
theorem phase_append_ignores_predecessor {σ : Type} (libs : Libs) (ds : Datastore σ)
    (now : Time) (ipfs : Connector) (store : σ) (keyStore : KeyStore) (order : OrderDoc)
    (prevCID nodeID commitmentPublicKey secret : String) (data : Bytes)
    (recipients : Recipients) :
    ((CreateAndStoreOrderPart2 libs ds now ipfs store keyStore order prevCID
        commitmentPublicKey nodeID recipients).order.OrderPart2 ≠ none ∧
      ((WriteOrderToIPFS libs ds now nodeID ipfs store keyStore nodeID
          { order with OrderPart2 := some ⟨commitmentPublicKey, prevCID, now.Unix⟩ }
          recipients).err = none →
        (CreateAndStoreOrderPart2 libs ds now ipfs store keyStore order prevCID
          commitmentPublicKey nodeID recipients).err = none ∧
        (CreateAndStoreOrderPart2 libs ds now ipfs store keyStore order prevCID
          commitmentPublicKey nodeID recipients).cid =
          (WriteOrderToIPFS libs ds now nodeID ipfs store keyStore nodeID
            { order with OrderPart2 := some ⟨commitmentPublicKey, prevCID, now.Unix⟩ }
            recipients).value)) ∧
    ((CreateAndStorePart3 libs ds now ipfs store keyStore order prevCID nodeID data
        recipients).order.OrderPart3 ≠ none ∧
      ((WriteOrderToIPFS libs ds now nodeID ipfs store keyStore nodeID
          { order with
            OrderPart3 := some ⟨"SignedReferenceNumber", prevCID, data, now.Unix⟩ }
          recipients).err = none →
        (CreateAndStorePart3 libs ds now ipfs store keyStore order prevCID nodeID data
          recipients).err = none ∧
        (CreateAndStorePart3 libs ds now ipfs store keyStore order prevCID nodeID data
          recipients).cid =
          (WriteOrderToIPFS libs ds now nodeID ipfs store keyStore nodeID
            { order with
              OrderPart3 := some ⟨"SignedReferenceNumber", prevCID, data, now.Unix⟩ }
            recipients).value)) ∧
    ((CreateAndStoreOrderPart4 libs ds now ipfs store keyStore order secret prevCID nodeID
        recipients).order.OrderPart4 ≠ none ∧
      ((WriteOrderToIPFS libs ds now nodeID ipfs store keyStore nodeID
          { order with OrderPart4 := some ⟨secret, prevCID, now.Unix⟩ }
          recipients).err = none →
        (CreateAndStoreOrderPart4 libs ds now ipfs store keyStore order secret prevCID nodeID
          recipients).err = none ∧
        (CreateAndStoreOrderPart4 libs ds now ipfs store keyStore order secret prevCID nodeID
          recipients).cid =
          (WriteOrderToIPFS libs ds now nodeID ipfs store keyStore nodeID
            { order with OrderPart4 := some ⟨secret, prevCID, now.Unix⟩ }
            recipients).value)) := by
  refine ⟨⟨?_, fun h => ?_⟩, ⟨?_, fun h => ?_⟩, ⟨?_, fun h => ?_⟩⟩
  · simp only [CreateAndStoreOrderPart2]; split <;> simp
  · simp only [CreateAndStoreOrderPart2]; simp [h]
  · simp only [CreateAndStorePart3]; split <;> simp
  · simp only [CreateAndStorePart3]; simp [h]
  · simp only [CreateAndStoreOrderPart4]; split <;> simp
  · simp only [CreateAndStoreOrderPart4]; simp [h]

/-- C1 (amended), at a phase-1 order: part 3 and part 4 are appended although their
predecessors are absent. -/
theorem phase_append_ignores_predecessor_witness :
    (CreateAndStorePart3 fxLibs memDatastore fxNow fxIpfs [] fxKeyStore fxOrder1
        "QmPart2" "QmNode" [1, 2] []).order.OrderPart3 ≠ none ∧
    (CreateAndStorePart3 fxLibs memDatastore fxNow fxIpfs [] fxKeyStore fxOrder1
        "QmPart2" "QmNode" [1, 2] []).err = none ∧
    (CreateAndStoreOrderPart4 fxLibs memDatastore fxNow fxIpfs [] fxKeyStore fxOrder1
        "secret" "QmPart2" "QmNode" []).err = none :=
  have h := phase_append_ignores_predecessor fxLibs memDatastore fxNow fxIpfs [] fxKeyStore
    fxOrder1 "QmPart2" "QmNode" "key" "secret" [1, 2] []
  ⟨h.2.1.1, (h.2.1.2 rfl).1, (h.2.2.2 rfl).1⟩

/-- C2 (counterexample): on an order whose part 2, part 3 and part 4 are set, each append
replaces the revision on record by a new one. -/
theorem append_present_phase_counterexample :
    fxOrder4.OrderPart2 = some ⟨"oldKey", "QmPart1", 1569995000⟩ ∧
    (CreateAndStoreOrderPart2 fxLibs memDatastore fxNow fxIpfs [] fxKeyStore fxOrder4
      "QmOther" "newKey" "QmNode" []).order.OrderPart2
        = some ⟨"newKey", "QmOther", 1570000000⟩ ∧
    (CreateAndStoreOrderPart2 fxLibs memDatastore fxNow fxIpfs [] fxKeyStore fxOrder4
      "QmOther" "newKey" "QmNode" []).order.OrderPart2 ≠ fxOrder4.OrderPart2 ∧
    (CreateAndStorePart3 fxLibs memDatastore fxNow fxIpfs [] fxKeyStore fxOrder4
      "QmOther" "QmNode" [1, 2] []).order.OrderPart3 ≠ fxOrder4.OrderPart3 ∧
    (CreateAndStoreOrderPart4 fxLibs memDatastore fxNow fxIpfs [] fxKeyStore fxOrder4
      "newSecret" "QmOther" "QmNode" []).order.OrderPart4 ≠ fxOrder4.OrderPart4 := by
  refine ⟨rfl, rfl, ?_, ?_, ?_⟩ <;> decide

/-- C2 (amended): appending a phase replaces the revision of that phase: whatever the order
held before, after the call the revision is the one built from the arguments of the call
and the time of the call. -/
theorem phase_append_replaces_revision {σ : Type} (libs : Libs) (ds : Datastore σ)
    (now : Time) (ipfs : Connector) (store : σ) (keyStore : KeyStore) (order : OrderDoc)
    (prevCID nodeID commitmentPublicKey secret : String) (data : Bytes)
    (recipients : Recipients) :
    (CreateAndStoreOrderPart2 libs ds now ipfs store keyStore order prevCID
      commitmentPublicKey nodeID recipients).order.OrderPart2
        = some ⟨commitmentPublicKey, prevCID, now.Unix⟩ ∧
    (CreateAndStorePart3 libs ds now ipfs store keyStore order prevCID nodeID data
      recipients).order.OrderPart3
        = some ⟨"SignedReferenceNumber", prevCID, data, now.Unix⟩ ∧
    (CreateAndStoreOrderPart4 libs ds now ipfs store keyStore order secret prevCID nodeID
      recipients).order.OrderPart4 = some ⟨secret, prevCID, now.Unix⟩ := by
  refine ⟨?_, ?_, ?_⟩
  · simp only [CreateAndStoreOrderPart2]; split <;> rfl
  · simp only [CreateAndStorePart3]; split <;> rfl
  · simp only [CreateAndStoreOrderPart4]; split <;> rfl

/-- C3 (the code at the failing input): with no seed in the key store the publish step
fails with "load secrets"; `CreateAndStoreOrderPart2` returns that error, while
`CreateAndStorePart3` and `CreateAndStoreOrderPart4` return an empty content id and a nil
error. -/
theorem phase_append_swallows_publish_error :
    (WriteOrderToIPFS fxLibs memDatastore fxNow "QmNode" fxIpfs [] fxEmptyKeyStore "QmNode"
      { fxOrder2 with OrderPart3 := some ⟨"SignedReferenceNumber", "QmPart2", [1, 2], 1570000000⟩ }
      []).err = some ⟨"load secrets"⟩ ∧
    (CreateAndStorePart3 fxLibs memDatastore fxNow fxIpfs [] fxEmptyKeyStore fxOrder2
      "QmPart2" "QmNode" [1, 2] []).err = none ∧
    (CreateAndStorePart3 fxLibs memDatastore fxNow fxIpfs [] fxEmptyKeyStore fxOrder2
      "QmPart2" "QmNode" [1, 2] []).cid = "" ∧
    (CreateAndStoreOrderPart4 fxLibs memDatastore fxNow fxIpfs [] fxEmptyKeyStore fxOrder2
      "secret" "QmPart3" "QmNode" []).err = none ∧
    (CreateAndStoreOrderPart4 fxLibs memDatastore fxNow fxIpfs [] fxEmptyKeyStore fxOrder2
      "secret" "QmPart3" "QmNode" []).cid = "" ∧
    (CreateAndStoreOrderPart2 fxLibs memDatastore fxNow fxIpfs [] fxEmptyKeyStore fxOrder1
      "QmPart1" "key" "QmNode" []).err = some ⟨"load secrets"⟩ := by
  refine ⟨rfl, rfl, rfl, rfl, rfl, rfl⟩

/-- C8: each phase-append operation sets the previous content id of its revision to the
content id it was given and stores the supplied commitment key, payload or secret in it,
and leaves the reference, the principal, the beneficiary and the other phase revisions of
the order as they were. -/
theorem phase_append_links_and_frames {σ : Type} (libs : Libs) (ds : Datastore σ)
    (now : Time) (ipfs : Connector) (store : σ) (keyStore : KeyStore) (order : OrderDoc)
    (prevCID nodeID commitmentPublicKey secret : String) (data : Bytes)
    (recipients : Recipients) :
    ((CreateAndStoreOrderPart2 libs ds now ipfs store keyStore order prevCID
          commitmentPublicKey nodeID recipients).order.OrderPart2.map
          (fun p => (p.PreviousOrderCID, p.CommitmentPublicKey))
        = some (prevCID, commitmentPublicKey) ∧
      (CreateAndStoreOrderPart2 libs ds now ipfs store keyStore order prevCID
          commitmentPublicKey nodeID recipients).order
        = { order with
            OrderPart2 := (CreateAndStoreOrderPart2 libs ds now ipfs store keyStore order
              prevCID commitmentPublicKey nodeID recipients).order.OrderPart2 }) ∧
    ((CreateAndStorePart3 libs ds now ipfs store keyStore order prevCID nodeID data
          recipients).order.OrderPart3.map
          (fun p => (p.PreviousOrderCID, p.BeneficiaryEncryptedData))
        = some (prevCID, data) ∧
      (CreateAndStorePart3 libs ds now ipfs store keyStore order prevCID nodeID data
          recipients).order
        = { order with
            OrderPart3 := (CreateAndStorePart3 libs ds now ipfs store keyStore order prevCID
              nodeID data recipients).order.OrderPart3 }) ∧
    ((CreateAndStoreOrderPart4 libs ds now ipfs store keyStore order secret prevCID nodeID
          recipients).order.OrderPart4.map (fun p => (p.PreviousOrderCID, p.Secret))
        = some (prevCID, secret) ∧
      (CreateAndStoreOrderPart4 libs ds now ipfs store keyStore order secret prevCID nodeID
          recipients).order
        = { order with
            OrderPart4 := (CreateAndStoreOrderPart4 libs ds now ipfs store keyStore order
              secret prevCID nodeID recipients).order.OrderPart4 }) := by
  refine ⟨⟨?_, ?_⟩, ⟨?_, ?_⟩, ⟨?_, ?_⟩⟩
  · simp only [CreateAndStoreOrderPart2]; split <;> rfl
  · simp only [CreateAndStoreOrderPart2]; split <;> rfl
  · simp only [CreateAndStorePart3]; split <;> rfl
  · simp only [CreateAndStorePart3]; split <;> rfl
  · simp only [CreateAndStoreOrderPart4]; split <;> rfl
  · simp only [CreateAndStoreOrderPart4]; split <;> rfl

/-! ## The order listing -/

/-- In the range of a Go `int`, wrapping changes nothing. -/
theorem wrapInt_of_fits (x : Int) (h0 : 0 ≤ x) (h1 : x < 2 ^ 63) : wrapInt x = x := by
  unfold wrapInt
  omega

/-- The references at positions `[a, b)` are what remains after dropping `a` references,
cut to `b - a`. -/
theorem positions_eq_take_drop (l : List String) (a b : Nat) :
    positions l a b = (l.drop a).take (b - a) := by
  unfold positions
  induction (b - a) with
  | zero => simp
  | succ n ih =>
    rw [List.range_succ, List.filterMap_append, ih, List.take_succ, List.getElem?_drop]
    cases h : l[a + n]? <;> simp [h]

/-- Slicing a list from `0` to its length gives the list. -/
theorem goSlice_full (s : List String) : goSlice s 0 (s.length : Int) = some s := by
  simp [goSlice]

/-- When the listing holds at most `perPage` keys, the computed bounds are those of the
whole listing or denote the same slice. -/
theorem goSlice_bounds_of_short (s : List String) (k P : Nat) (hP : 0 < P)
    (hs : s.length ≤ P) :
    goSlice s (OrderList.bounds k P (s.length : Int)).1 (OrderList.bounds k P (s.length : Int)).2
      = some s := by
  unfold OrderList.bounds
  have hP0 : (P : Int) ≠ 0 := by omega
  rw [if_pos hP0]
  split
  · rename_i hlt
    have hdiv : Int.tdiv (s.length : Int) (P : Int) = ((s.length / P : Nat) : Int) := by
      rw [Int.tdiv_eq_ediv] <;> simp
    rw [hdiv] at hlt
    have hlt2 : k < s.length / P := by exact_mod_cast hlt
    have hmul : (k + 1) * P ≤ s.length := (Nat.le_div_iff_mul_le hP).1 hlt2
    have hk : k = 0 := by
      by_contra hne
      have : 2 * P ≤ (k + 1) * P := Nat.mul_le_mul_right P (by omega)
      omega
    subst hk
    have hlen : s.length = P := by omega
    split
    · simp only [goSlice]
      rw [if_pos (by omega)]
      simp [← hlen]
    · exact goSlice_full s
  · exact goSlice_full s

/-- The page of the listing model, for a positive limit and an offset that is not negative. -/
theorem listPage_of_pos (keys : List String) (a P : Nat) (hP : 0 < P) (sortBy : String) :
    listPage keys (a : Int) (P : Int) (decide (sortBy ≠ "dateCreatedAsc"))
      = ((requestedOrder keys sortBy).drop a).take P := by
  have hP0 : (0 : Int) < (P : Int) := by exact_mod_cast hP
  unfold listPage requestedOrder
  by_cases h : sortBy = "dateCreatedAsc"
  · simp [h, hP0]
  · simp [h, hP0]

/-- C4 (amended): when `ListKeys` returns the keys in the requested order from offset `skip`,
at most `limit` of them, and the product `k * P` fits a Go `int`, `OrderList` with page `k`
and `perPage = P > 0` returns the references at positions `[k*P, min((k+1)*P, N))` of the
`N` keys in the requested order. -/
theorem OrderList_page {σ : Type} (ds : Datastore σ) (store : σ) (keys : List String)
    (k P : Nat) (sortBy : String)
    (hlist : ∀ skip limit reverse,
      ds.ListKeys store "order" "time" skip limit reverse
        = .ok (listPage keys skip limit reverse))
    (hP : 0 < P) (hfit : k * P < 2 ^ 63) :
    OrderList ds store ⟨(k : Int), (P : Int), sortBy⟩
      = .ok ⟨positions (requestedOrder keys sortBy) (k * P)
          (min ((k + 1) * P) keys.length)⟩ := by
  have hmul : goMul (k : Int) (P : Int) = ((k * P : Nat) : Int) := by
    unfold goMul
    rw [wrapInt_of_fits] <;> push_cast <;> first | rfl | positivity | exact_mod_cast hfit
  have hshort : (((requestedOrder keys sortBy).drop (k * P)).take P).length ≤ P :=
    List.length_take_le _ _
  have hpos : positions (requestedOrder keys sortBy) (k * P) (min ((k + 1) * P) keys.length)
      = ((requestedOrder keys sortBy).drop (k * P)).take P := by
    rw [positions_eq_take_drop]
    have hlen : (requestedOrder keys sortBy).length = keys.length := by
      unfold requestedOrder; split <;> simp
    apply List.ext_getElem?
    intro i
    simp only [List.getElem?_take, List.getElem?_drop]
    by_cases hi : i < P
    · by_cases hi2 : k * P + i < keys.length
      · have : i < min ((k + 1) * P) keys.length - k * P := by
          rw [Nat.add_mul, Nat.one_mul]; omega
        simp [hi, this]
      · have hnone : (requestedOrder keys sortBy)[k * P + i]? = none := by
          apply List.getElem?_eq_none; omega
        simp [hnone]
    · have : ¬ i < min ((k + 1) * P) keys.length - k * P := by
        rw [Nat.add_mul, Nat.one_mul]; omega
      simp [hi, this]
  simp only [OrderList, hmul, hlist, listPage_of_pos keys (k * P) P hP sortBy,
    goSlice_bounds_of_short _ k P hP hshort, hpos]

/-- C4 (amended), at the second page of two references out of three. -/
theorem OrderList_page_witness :
    OrderList memDatastore fxIndex ⟨1, 2, "dateCreatedAsc"⟩ = .ok ⟨["ref-c"]⟩ :=
  (OrderList_page memDatastore fxIndex (MemStore.sortedKeys fxIndex "order" "time") 1 2
    "dateCreatedAsc" (fun _ _ _ => rfl) (by decide) (by decide)).trans rfl

/-- C4 (counterexample): the store lists as the claim has it; with `page = perPage = 2^32`
the product wraps to `0`, and `OrderList` returns all three references, while the positions
from `2^64` on hold none. -/
theorem OrderList_page_overflow_counterexample :
    (∀ skip limit reverse,
      memDatastore.ListKeys fxIndex "order" "time" skip limit reverse
        = .ok (listPage (MemStore.sortedKeys fxIndex "order" "time") skip limit reverse)) ∧
    OrderList memDatastore fxIndex ⟨4294967296, 4294967296, "dateCreatedAsc"⟩
      = .ok ⟨["ref-a", "ref-b", "ref-c"]⟩ ∧
    positions (requestedOrder (MemStore.sortedKeys fxIndex "order" "time") "dateCreatedAsc")
      (4294967296 * 4294967296) (min ((4294967296 + 1) * 4294967296) 3) = [] :=
  ⟨fun _ _ _ => rfl, rfl, rfl⟩

/-- C5: with `perPage = 0`, for every page, `OrderList` returns the whole list that the
store listing returns, in its order. -/
theorem OrderList_perPage_zero {σ : Type} (ds : Datastore σ) (store : σ) (page : Int)
    (sortBy : String) (listing : List String)
    (hlist : ds.ListKeys store "order" "time" 0 0 (decide (sortBy ≠ "dateCreatedAsc"))
      = .ok listing) :
    OrderList ds store ⟨page, 0, sortBy⟩ = .ok ⟨listing⟩ := by
  have hmul : goMul page 0 = 0 := by simp [goMul, wrapInt]
  simp only [OrderList, hmul, hlist, OrderList.bounds, ne_eq, not_true_eq_false, if_false,
    goSlice_full]

/-- C5, at page 7 of the index of three orders, newest first. -/
theorem OrderList_perPage_zero_witness :
    OrderList memDatastore fxIndex ⟨7, 0, "dateCreatedDesc"⟩
      = .ok ⟨["ref-c", "ref-b", "ref-a"]⟩ :=
  OrderList_perPage_zero memDatastore fxIndex 7 "dateCreatedDesc" ["ref-c", "ref-b", "ref-a"] rfl

/-! ## The index after the publish step -/

/-- A lookup in the in-memory index after a write: the value written under the key written,
the former result under every other key. -/
theorem MemStore.get_set (s : MemStore) (datatype key value : String)
    (metadata : Option (List (String × String))) (t k : String) :
    MemStore.get (MemStore.set s datatype key value metadata) t k
      = if t = datatype ∧ k = key then .ok value else MemStore.get s t k := by
  unfold MemStore.get MemStore.set
  induction s with
  | nil =>
    by_cases h : t = datatype ∧ k = key
    · simp [h]
    · have h2 : (datatype == t && key == k) = false := by
        rw [Bool.and_eq_false_iff]
        by_cases ht : t = datatype
        · right; simp; intro hk; exact h ⟨ht, hk.symm⟩
        · left; simp; intro hd; exact ht hd.symm
      simp [h, List.find?, h2]
  | cons e es ih =>
    by_cases hp : (e.datatype == datatype && e.key == key) = true
    · simp only [List.filter_cons, hp, Bool.not_true, Bool.false_eq_true, if_false] at ih ⊢
      rw [ih]
      by_cases h : t = datatype ∧ k = key
      · simp [h]
      · have h2 : (e.datatype == t && e.key == k) = false := by
          simp only [Bool.and_eq_true, beq_iff_eq] at hp
          rw [Bool.and_eq_false_iff]
          by_cases ht : t = datatype
          · right; simp; intro hk; exact h ⟨ht, by rw [← hk, hp.2]⟩
          · left; simp; intro hd; exact ht (by rw [← hd, hp.1])
        simp [h, List.find?, h2]
    · simp only [List.filter_cons, hp, Bool.not_false, if_true, List.cons_append,
        List.find?_cons] at ih ⊢
      by_cases hq : (e.datatype == t && e.key == k) = true
      · have hne : ¬ (t = datatype ∧ k = key) := by
          simp only [Bool.and_eq_true, beq_iff_eq] at hq hp
          rintro ⟨ht, hk⟩
          exact hp ⟨by rw [hq.1, ht], by rw [hq.2, hk]⟩
        simp [hq, hne]
      · simp only [hq]
        exact ih

/-- C6 (counterexample): the backend writes the record and then reports an error;
`WriteOrderToIPFS` returns "Save Order to store", and the content id on record for the
reference of the order has moved from `"QmA"` to `"QmNew"`. -/
theorem WriteOrderToIPFS_failed_write_counterexample :
    leakyDatastore.Get fxIndex "order" "ref-a" = .ok "QmA" ∧
    (WriteOrderToIPFS fxLibs leakyDatastore fxNow "QmNode" fxIpfs fxIndex fxKeyStore "QmNode"
      fxOrderA []).err = some ⟨"Save Order to store"⟩ ∧
    leakyDatastore.Get (WriteOrderToIPFS fxLibs leakyDatastore fxNow "QmNode" fxIpfs fxIndex
      fxKeyStore "QmNode" fxOrderA []).store "order" "ref-a" = .ok "QmNew" :=
  ⟨rfl, rfl, rfl⟩

/-- C6 (amended): when seed load, key derivation, encoding or the IPFS add fails,
`WriteOrderToIPFS` returns an error and the store it was given, so every lookup in the index
is as before the call; when the four steps succeed, the store after the call is the one
that `Set` left, and `WriteOrderToIPFS` returns an error exactly when `Set` did. -/
theorem WriteOrderToIPFS_early_failure_keeps_index {σ : Type} (libs : Libs)
    (ds : Datastore σ) (now : Time) (nodeID : String) (ipfs : Connector) (store : σ)
    (keyStore : KeyStore) (id : String) (order : OrderDoc) (recipients : Recipients) :
    ((¬ ∃ seed keys rawDoc ipfsAddress,
        keyStore.Get "seed" = .ok seed ∧ libs.GenerateBLSKeys seed = .ok keys ∧
        libs.EncodeOrderDocument nodeID order keys.2 recipients = .ok rawDoc ∧
        ipfs.Add rawDoc = .ok ipfsAddress) →
      (WriteOrderToIPFS libs ds now nodeID ipfs store keyStore id order recipients).err ≠ none ∧
      (WriteOrderToIPFS libs ds now nodeID ipfs store keyStore id order recipients).store
        = store ∧
      ∀ t k, ds.Get (WriteOrderToIPFS libs ds now nodeID ipfs store keyStore id order
        recipients).store t k = ds.Get store t k) ∧
    (∀ seed keys rawDoc ipfsAddress,
      keyStore.Get "seed" = .ok seed → libs.GenerateBLSKeys seed = .ok keys →
      libs.EncodeOrderDocument nodeID order keys.2 recipients = .ok rawDoc →
      ipfs.Add rawDoc = .ok ipfsAddress →
      (WriteOrderToIPFS libs ds now nodeID ipfs store keyStore id order recipients).store
        = (ds.Set store "order" order.Reference ipfsAddress
            (some [("time", now.RFC3339)])).1 ∧
      ((WriteOrderToIPFS libs ds now nodeID ipfs store keyStore id order recipients).err
          ≠ none ↔
        (ds.Set store "order" order.Reference ipfsAddress
          (some [("time", now.RFC3339)])).2 ≠ none)) := by
  constructor
  · intro hearly
    rcases WriteOrderToIPFS_cases libs ds now nodeID ipfs store keyStore id order recipients
      with ⟨hst, _, herr⟩ | ⟨seed, keys, rawDoc, ipfsAddress, h1, h2, h3, h4, _, _⟩
    · exact ⟨herr, hst, fun t k => by rw [hst]⟩
    · exact absurd ⟨seed, keys, rawDoc, ipfsAddress, h1, h2, h3, h4⟩ hearly
  · intro seed keys rawDoc ipfsAddress h1 h2 h3 h4
    obtain ⟨pk, sk⟩ := keys
    rcases hs : ds.Set store "order" order.Reference ipfsAddress
      (some [("time", now.RFC3339)]) with ⟨store1, _ | e⟩
    · simp [WriteOrderToIPFS, h1, h2, h3, h4, hs]
    · simp [WriteOrderToIPFS, h1, h2, h3, h4, hs]

/-- C6 (amended), at a key store without a seed, on the backend that writes before it
reports an error: the publish fails before the index write and `"ref-a"` keeps `"QmA"`;
with a seed, the store after the call is the one that the failed `Set` left. -/
theorem WriteOrderToIPFS_early_failure_keeps_index_witness :
    (WriteOrderToIPFS fxLibs leakyDatastore fxNow "QmNode" fxIpfs fxIndex fxEmptyKeyStore
      "QmNode" fxOrderA []).err ≠ none ∧
    leakyDatastore.Get (WriteOrderToIPFS fxLibs leakyDatastore fxNow "QmNode" fxIpfs fxIndex
      fxEmptyKeyStore "QmNode" fxOrderA []).store "order" "ref-a" = .ok "QmA" ∧
    (WriteOrderToIPFS fxLibs leakyDatastore fxNow "QmNode" fxIpfs fxIndex fxKeyStore
      "QmNode" fxOrderA []).store
      = (leakyDatastore.Set fxIndex "order" "ref-a" "QmNew"
          (some [("time", "2019-10-02T07:06:40Z")])).1 :=
  have hearly := (WriteOrderToIPFS_early_failure_keeps_index fxLibs leakyDatastore fxNow
    "QmNode" fxIpfs fxIndex fxEmptyKeyStore "QmNode" fxOrderA []).1
    (by rintro ⟨seed, _, _, _, h, _⟩; cases h)
  ⟨hearly.1, (hearly.2.2 "order" "ref-a").trans rfl,
    ((WriteOrderToIPFS_early_failure_keeps_index fxLibs leakyDatastore fxNow "QmNode" fxIpfs
      fxIndex fxKeyStore "QmNode" fxOrderA []).2 [7] ([7], [7]) [123, 125] "QmNew"
      rfl rfl rfl rfl).1⟩

/-- C7: when a successful `Set` makes the lookup of its key return the value written and
leaves the other lookups as they were, a `WriteOrderToIPFS` that succeeds returns the
content id that `Add` returned for the encoded envelope, the lookup of the reference of the
order in the `"order"` index returns that content id, and the lookups of other references
are as before. -/
theorem WriteOrderToIPFS_success_records_cid {σ : Type} (libs : Libs) (ds : Datastore σ)
    (now : Time) (nodeID : String) (ipfs : Connector) (store : σ) (keyStore : KeyStore)
    (id : String) (order : OrderDoc) (recipients : Recipients)
    (hset : ∀ s datatype key value metadata,
      (ds.Set s datatype key value metadata).2 = none →
        ds.Get (ds.Set s datatype key value metadata).1 datatype key = .ok value ∧
        ∀ k, k ≠ key →
          ds.Get (ds.Set s datatype key value metadata).1 datatype k = ds.Get s datatype k)
    (hok : (WriteOrderToIPFS libs ds now nodeID ipfs store keyStore id order recipients).err
      = none) :
    (∃ seed keys rawDoc,
      keyStore.Get "seed" = .ok seed ∧ libs.GenerateBLSKeys seed = .ok keys ∧
      libs.EncodeOrderDocument nodeID order keys.2 recipients = .ok rawDoc ∧
      ipfs.Add rawDoc = .ok (WriteOrderToIPFS libs ds now nodeID ipfs store keyStore id order
        recipients).value) ∧
    ds.Get (WriteOrderToIPFS libs ds now nodeID ipfs store keyStore id order recipients).store
        "order" order.Reference
      = .ok (WriteOrderToIPFS libs ds now nodeID ipfs store keyStore id order recipients).value ∧
    ∀ ref, ref ≠ order.Reference →
      ds.Get (WriteOrderToIPFS libs ds now nodeID ipfs store keyStore id order recipients).store
        "order" ref = ds.Get store "order" ref := by
  rcases WriteOrderToIPFS_cases libs ds now nodeID ipfs store keyStore id order recipients with
    ⟨_, _, hne⟩ | ⟨seed, keys, rawDoc, ipfsAddress, h1, h2, h3, h4, hst, hres⟩
  · exact absurd hok hne
  · rcases hres with ⟨hnone, hval, _⟩ | ⟨_, _, hne⟩
    · have hlaw := hset store "order" order.Reference ipfsAddress
        (some [("time", now.RFC3339)]) hnone
      rw [hst, hval]
      exact ⟨⟨seed, keys, rawDoc, h1, h2, h3, h4⟩, hlaw.1, hlaw.2⟩
    · exact absurd hok hne

/-- C7, at the index of three orders: publishing the order `"ref-a"` returns `"QmNew"` and
puts it on record for `"ref-a"`, and `"ref-b"` keeps `"QmB"`. -/
theorem WriteOrderToIPFS_success_records_cid_witness :
    (WriteOrderToIPFS fxLibs memDatastore fxNow "QmNode" fxIpfs fxIndex fxKeyStore "QmNode"
      fxOrderA []).value = "QmNew" ∧
    memDatastore.Get (WriteOrderToIPFS fxLibs memDatastore fxNow "QmNode" fxIpfs fxIndex
      fxKeyStore "QmNode" fxOrderA []).store "order" "ref-a" = .ok "QmNew" ∧
    memDatastore.Get (WriteOrderToIPFS fxLibs memDatastore fxNow "QmNode" fxIpfs fxIndex
      fxKeyStore "QmNode" fxOrderA []).store "order" "ref-b" = .ok "QmB" :=
  have h := WriteOrderToIPFS_success_records_cid fxLibs memDatastore fxNow "QmNode" fxIpfs
    fxIndex fxKeyStore "QmNode" fxOrderA []
    (fun s datatype key value metadata _ =>
      ⟨by simp [memDatastore, MemStore.get_set],
        fun k hk => by simp [memDatastore, MemStore.get_set, hk]⟩)
    rfl
  ⟨rfl, h.2.1, (h.2.2 "ref-b" (by decide)).trans rfl⟩

/-! ## Seeds -/

/-- C9 (the code at the failing input): the index holds no seed for `"bob"`, the lookup
fails, and `RetrieveSeed` returns the empty string with a nil error. -/
theorem RetrieveSeed_swallows_not_found :
    memDatastore.Get fxIndex "keySeed" "bob" = .error ⟨"key not found"⟩ ∧
    RetrieveSeed memDatastore fxIndex "bob" = ("", none) :=
  ⟨rfl, rfl⟩

/-- C10 (counterexample): the index holds the seed `"00ff"` for `"alice"`; the call returns
a nil error and a fresh seed, and the index then holds the fresh seed for `"alice"`. -/
theorem MakeRandomSeedAndStore_regenerates_counterexample :
    memDatastore.Get fxIndex "keySeed" "alice" = .ok "00ff" ∧
    (MakeRandomSeedAndStore memDatastore fxIndex fxRng "alice").err = none ∧
    (MakeRandomSeedAndStore memDatastore fxIndex fxRng "alice").seedHex
      = "abababababababababababababababababababababababababababababababab" ∧
    (MakeRandomSeedAndStore memDatastore fxIndex fxRng "alice").seedHex ≠ "00ff" ∧
    memDatastore.Get (MakeRandomSeedAndStore memDatastore fxIndex fxRng "alice").store
      "keySeed" "alice"
      = .ok "abababababababababababababababababababababababababababababababab" :=
  ⟨rfl, rfl, by decide, by decide, by rfl⟩

/-- C10 (amended): `MakeRandomSeedAndStore` does not look for a seed on record. For every
store, also one that holds a seed for the reference, when the source delivers 32 bytes and
the write succeeds, the call returns the hex encoding of those bytes with a nil error, and
the store then holds that string for the reference. -/
theorem MakeRandomSeedAndStore_overwrites {σ : Type} (ds : Datastore σ) (store : σ)
    (rng : Reader) (reference : String)
    (hset : ∀ s datatype key value metadata,
      (ds.Set s datatype key value metadata).2 = none →
        ds.Get (ds.Set s datatype key value metadata).1 datatype key = .ok value)
    (hlen : 32 ≤ rng.bytes.length)
    (hok : (ds.Set store "keySeed" reference (hexEncodeToString (rng.bytes.take 32)) none).2
      = none) :
    (MakeRandomSeedAndStore ds store rng reference).err = none ∧
    (MakeRandomSeedAndStore ds store rng reference).seedHex
      = hexEncodeToString (rng.bytes.take 32) ∧
    ds.Get (MakeRandomSeedAndStore ds store rng reference).store "keySeed" reference
      = .ok (hexEncodeToString (rng.bytes.take 32)) := by
  have hlaw := hset store "keySeed" reference (hexEncodeToString (rng.bytes.take 32)) none hok
  rcases hs : ds.Set store "keySeed" reference (hexEncodeToString (rng.bytes.take 32)) none
    with ⟨store1, e⟩
  rw [hs] at hok hlaw
  simp only at hok hlaw
  subst hok
  simp [MakeRandomSeedAndStore, ioReadFull, hlen, hs, hlaw]

/-- C10 (amended), at the index that holds `"00ff"` for `"alice"`. -/
theorem MakeRandomSeedAndStore_overwrites_witness :
    memDatastore.Get fxIndex "keySeed" "alice" = .ok "00ff" ∧
    memDatastore.Get (MakeRandomSeedAndStore memDatastore fxIndex fxRng "alice").store
      "keySeed" "alice" = .ok (hexEncodeToString (List.replicate 32 171)) :=
  ⟨rfl, (MakeRandomSeedAndStore_overwrites memDatastore fxIndex fxRng "alice"
    (fun s datatype key value metadata _ => by simp [memDatastore, MemStore.get_set])
    (by decide) rfl).2.2.trans rfl⟩

/-! ## The seed round trip -/

/-- The hex encoding of `n` bytes has `2 * n` characters. -/
theorem hexEncodeToString_length (src : Bytes) :
    (hexEncodeToString src).length = 2 * src.length := by
  unfold hexEncodeToString
  rw [String.length_mk]
  induction src with
  | nil => rfl
  | cons b bs ih =>
    simp only [List.flatMap_cons, List.length_append, List.length_cons, List.length_nil, ih]
    omega

/-- C11: when a successful `Set` makes the lookup of its key return the value written, a
successful `MakeRandomSeedAndStore` on a source of at least 32 bytes returns the hex
encoding of the first 32 bytes, a string of 64 characters, and `RetrieveSeed` on the store
it leaves returns that string for the same reference; on a source of fewer than 32 bytes
the call fails and returns the store it was given. -/
theorem seed_round_trip {σ : Type} (ds : Datastore σ) (store : σ) (rng : Reader)
    (reference : String)
    (hset : ∀ s datatype key value metadata,
      (ds.Set s datatype key value metadata).2 = none →
        ds.Get (ds.Set s datatype key value metadata).1 datatype key = .ok value) :
    (32 ≤ rng.bytes.length → (MakeRandomSeedAndStore ds store rng reference).err = none →
      (MakeRandomSeedAndStore ds store rng reference).seedHex
        = hexEncodeToString (rng.bytes.take 32) ∧
      (MakeRandomSeedAndStore ds store rng reference).seedHex.length = 64 ∧
      RetrieveSeed ds (MakeRandomSeedAndStore ds store rng reference).store reference
        = ((MakeRandomSeedAndStore ds store rng reference).seedHex, none)) ∧
    (rng.bytes.length < 32 →
      (MakeRandomSeedAndStore ds store rng reference).err ≠ none ∧
      (MakeRandomSeedAndStore ds store rng reference).seedHex = "" ∧
      (MakeRandomSeedAndStore ds store rng reference).store = store) := by
  constructor
  · intro hlen hok
    have hhex : (hexEncodeToString (rng.bytes.take 32)).length = 64 := by
      rw [hexEncodeToString_length, List.length_take]; omega
    rcases hs : ds.Set store "keySeed" reference (hexEncodeToString (rng.bytes.take 32)) none
      with ⟨store1, e⟩
    have hlaw := hset store "keySeed" reference (hexEncodeToString (rng.bytes.take 32)) none
    rw [hs] at hlaw
    cases e with
    | some err => simp [MakeRandomSeedAndStore, ioReadFull, hlen, hs] at hok
    | none =>
      have hget := hlaw rfl
      simp only at hget
      simp [MakeRandomSeedAndStore, ioReadFull, hlen, hs, RetrieveSeed, hget, hhex]
  · intro hlen
    have h32 : ¬ 32 ≤ rng.bytes.length := by omega
    by_cases h0 : rng.bytes.length = 0
    · simp [MakeRandomSeedAndStore, ioReadFull, h32, h0]
    · simp [MakeRandomSeedAndStore, ioReadFull, h32, h0]

/-- C11, at the in-memory index: the seed made from 34 bytes of `0xab` is read back for
`"alice"`, and a source of 5 bytes makes the call fail and leaves the index as it was. -/
theorem seed_round_trip_witness :
    RetrieveSeed memDatastore (MakeRandomSeedAndStore memDatastore fxIndex fxRng "alice").store
      "alice" = ("abababababababababababababababababababababababababababababababab", none) ∧
    (MakeRandomSeedAndStore memDatastore fxIndex fxShortRng "alice").err
      = some ⟨"unexpected EOF"⟩ ∧
    (MakeRandomSeedAndStore memDatastore fxIndex fxShortRng "alice").store = fxIndex :=
  ⟨(((seed_round_trip memDatastore fxIndex fxRng "alice"
      (fun s datatype key value metadata _ => by simp [memDatastore, MemStore.get_set])).1
      (by decide) rfl).2.2).trans (by decide),
    rfl,
    ((seed_round_trip memDatastore fxIndex fxShortRng "alice"
      (fun s datatype key value metadata _ => by simp [memDatastore, MemStore.get_set])).2
      (by decide)).2.2⟩

/-! ## The bounds of the listing slice -/

/-- C16 (counterexample): for a listing of three keys, page 2 and `perPage = 1`, the
computed bounds are `start = 2` and `stop = 1`, and `OrderList` panics at the slice. -/
theorem OrderList_bounds_counterexample :
    unboundedDatastore.ListKeys fxIndex "order" "time" (goMul 2 1) 1
      (decide ("dateCreatedAsc" ≠ "dateCreatedAsc")) = .ok ["ref-a", "ref-b", "ref-c"] ∧
    OrderList.bounds 2 1 3 = (2, 1) ∧
    OrderList unboundedDatastore fxIndex ⟨2, 1, "dateCreatedAsc"⟩ = .error .panic :=
  ⟨rfl, rfl, rfl⟩

/-- C16 (amended): for every page and `perPage` that are not negative and every key list,
of any length, the computed bounds satisfy `0 ≤ start ≤ stop ≤ len` and the slice is taken
without a panic if and only if the pagination branch is not taken with `page > perPage`
(that is, unless `perPage ≠ 0`, `page < len / perPage`, `page * perPage < len` and
`perPage < page` all hold); in particular they do whenever `page ≤ perPage`. -/
theorem OrderList_bounds_within_iff (page perPage : Int) (orderref : List String)
    (hpage : 0 ≤ page) (hper : 0 ≤ perPage) :
    ((0 ≤ (OrderList.bounds page perPage (orderref.length : Int)).1 ∧
        (OrderList.bounds page perPage (orderref.length : Int)).1
          ≤ (OrderList.bounds page perPage (orderref.length : Int)).2 ∧
        (OrderList.bounds page perPage (orderref.length : Int)).2 ≤ (orderref.length : Int) ∧
        goSlice orderref (OrderList.bounds page perPage (orderref.length : Int)).1
          (OrderList.bounds page perPage (orderref.length : Int)).2 ≠ none) ↔
      ¬ (perPage ≠ 0 ∧ page < Int.tdiv (orderref.length : Int) perPage ∧
          goMul page perPage < (orderref.length : Int) ∧ perPage < page)) ∧
    (page ≤ perPage →
      0 ≤ (OrderList.bounds page perPage (orderref.length : Int)).1 ∧
      (OrderList.bounds page perPage (orderref.length : Int)).1
        ≤ (OrderList.bounds page perPage (orderref.length : Int)).2 ∧
      (OrderList.bounds page perPage (orderref.length : Int)).2 ≤ (orderref.length : Int) ∧
      goSlice orderref (OrderList.bounds page perPage (orderref.length : Int)).1
        (OrderList.bounds page perPage (orderref.length : Int)).2 ≠ none) := by
  have hwhole : 0 ≤ (0 : Int) ∧ (0 : Int) ≤ (orderref.length : Int) ∧
      (orderref.length : Int) ≤ (orderref.length : Int) ∧
      goSlice orderref 0 (orderref.length : Int) ≠ none := by
    refine ⟨le_refl _, Int.ofNat_nonneg _, le_refl _, ?_⟩
    rw [goSlice_full]; simp
  have hiff : (0 ≤ (OrderList.bounds page perPage (orderref.length : Int)).1 ∧
        (OrderList.bounds page perPage (orderref.length : Int)).1
          ≤ (OrderList.bounds page perPage (orderref.length : Int)).2 ∧
        (OrderList.bounds page perPage (orderref.length : Int)).2 ≤ (orderref.length : Int) ∧
        goSlice orderref (OrderList.bounds page perPage (orderref.length : Int)).1
          (OrderList.bounds page perPage (orderref.length : Int)).2 ≠ none) ↔
      ¬ (perPage ≠ 0 ∧ page < Int.tdiv (orderref.length : Int) perPage ∧
          goMul page perPage < (orderref.length : Int) ∧ perPage < page) := by
    unfold OrderList.bounds
    by_cases h1 : perPage ≠ 0
    · by_cases h2 : page < Int.tdiv (orderref.length : Int) perPage
      · by_cases h3 : goMul page perPage < (orderref.length : Int)
        · rw [if_pos h1, if_pos h2, if_pos h3]
          have hpos : 0 < perPage := by omega
          have hlt := h2
          rw [Int.tdiv_eq_ediv (by omega) (by omega)] at hlt
          have hone : (1 : Int) ≤ (orderref.length : Int) / perPage := by omega
          have hle : 1 * perPage ≤ (orderref.length : Int) :=
            (Int.le_ediv_iff_mul_le hpos).1 hone
          have hle2 : perPage ≤ (orderref.length : Int) := by omega
          constructor
          · rintro ⟨_, hsp, _, _⟩ ⟨_, _, _, hgt⟩
            simp only at hsp
            omega
          · intro hn
            have hsp : page ≤ perPage := by
              by_contra hc
              exact hn ⟨h1, h2, h3, by omega⟩
            refine ⟨hpage, hsp, hle2, ?_⟩
            simp only [goSlice]
            rw [if_pos ⟨hpage, hsp, hle2⟩]
            simp
        · rw [if_pos h1, if_pos h2, if_neg h3]
          exact ⟨fun _ hg => h3 hg.2.2.1, fun _ => hwhole⟩
      · rw [if_pos h1, if_neg h2]
        exact ⟨fun _ hg => h2 hg.2.1, fun _ => hwhole⟩
    · rw [if_neg h1]
      exact ⟨fun _ hg => h1 hg.1, fun _ => hwhole⟩
  refine ⟨hiff, fun hle => hiff.2 ?_⟩
  rintro ⟨_, _, _, hgt⟩
  omega

/-- C16 (amended), at a listing of five keys, page 1 and `perPage = 2`: the pagination
branch is taken, the bounds are `start = 1` and `stop = 2`, and the slice is taken. -/
theorem OrderList_bounds_within_iff_witness :
    OrderList.bounds 1 2 (fxFiveKeys.length : Int) = (1, 2) ∧
    goSlice fxFiveKeys (OrderList.bounds 1 2 (fxFiveKeys.length : Int)).1
      (OrderList.bounds 1 2 (fxFiveKeys.length : Int)).2 ≠ none :=
  ⟨rfl, ((OrderList_bounds_within_iff 1 2 fxFiveKeys (by decide) (by decide)).2
    (by decide)).2.2.2⟩

/-! ## The final secret -/

/-- C12: for every order whose part 4 is present, `ProduceFinalSecret` returns; the
returned secret is the `Secret` of part 4 and the returned commitment is the first result
of `PublicKeyFromPrivate` on the returned secret, and the returned error is the error of
that derivation. -/
theorem ProduceFinalSecret_commitment_of_secret (codecs : Codecs) (seed sikeSK : Bytes)
    (order orderPart4 : OrderDoc) (beneficiaryIDDocumentCID : String) (part4 : OrderPart4)
    (hpart4 : orderPart4.OrderPart4 = some part4) :
    ∃ r, ProduceFinalSecret codecs seed sikeSK order orderPart4 beneficiaryIDDocumentCID
        = some r ∧
      r.secret = part4.Secret ∧
      r.commitment = (codecs.PublicKeyFromPrivate r.secret).1 ∧
      r.err = (codecs.PublicKeyFromPrivate r.secret).2.2 := by
  simp [ProduceFinalSecret, hpart4]

/-- C12, at the order whose part 4 holds `"oldSecret"`. -/
theorem ProduceFinalSecret_commitment_of_secret_witness :
    ∃ r, ProduceFinalSecret fxCodecs [] [] fxOrder1 fxOrder4 "QmBeneficiary" = some r ∧
      r.secret = "oldSecret" ∧
      r.commitment = (fxCodecs.PublicKeyFromPrivate r.secret).1 ∧
      r.err = (fxCodecs.PublicKeyFromPrivate r.secret).2.2 :=
  ProduceFinalSecret_commitment_of_secret fxCodecs [] [] fxOrder1 fxOrder4 "QmBeneficiary"
    ⟨"oldSecret", "QmOld3", 1569997000⟩ rfl

/-! ## The recipients -/

/-- A lookup in a list of pairs, at its head or in its tail. -/
theorem lookup_cons_ite (k' k : String) (v : IDDoc) (ps : Recipients) :
    List.lookup k' ((k, v) :: ps) = if k' = k then some v else List.lookup k' ps := by
  by_cases h : k' = k
  · subst h; simp [List.lookup]
  · have hb : (k' == k) = false := by simp [h]
    simp [List.lookup, hb, h]

/-- A lookup in a Go map after an assignment. -/
theorem lookup_goMapSet (m : Recipients) (k : String) (v : IDDoc) (k' : String) :
    (goMapSet m k v).lookup k' = if k' = k then some v else m.lookup k' := by
  unfold goMapSet
  induction m with
  | nil => simp only [List.filter_nil, List.nil_append, lookup_cons_ite, List.lookup_nil]
  | cons p ps ih =>
    obtain ⟨pk, pv⟩ := p
    by_cases hp : pk = k
    · simp only [List.filter_cons, hp, beq_self_eq_true, Bool.not_true, Bool.false_eq_true,
        if_false] at ih ⊢
      rw [ih, lookup_cons_ite]
      by_cases h : k' = k
      · simp [h]
      · simp [h]
    · have hb : (!(pk == k)) = true := by simp [hp]
      simp only [List.filter_cons, hb, if_true, List.cons_append] at ih ⊢
      rw [lookup_cons_ite, lookup_cons_ite, ih]
      by_cases hq : k' = pk
      · have hne : ¬ k' = k := by rw [hq]; exact hp
        simp [hq, hp]
      · simp [hq]

/-- C13: when `BuildRecipientList` returns a nil error, both identity documents were
fetched and the returned map holds the local id with the document fetched for it, the
remote id with the document fetched for it, and no other key; when either retrieval
returns an error, `BuildRecipientList` returns a nil map and an error. -/
theorem BuildRecipientList_holds_both (codecs : Codecs) (ipfs : Connector)
    (localNodeDocCID remoteNodeDocCID : String) :
    ((BuildRecipientList codecs ipfs localNodeDocCID remoteNodeDocCID).2 = none →
      ∃ localNodeDoc remoteNodeDoc recipients,
        RetrieveIDDocFromIPFS codecs ipfs localNodeDocCID = .decoded localNodeDoc none ∧
        RetrieveIDDocFromIPFS codecs ipfs remoteNodeDocCID = .decoded remoteNodeDoc none ∧
        (BuildRecipientList codecs ipfs localNodeDocCID remoteNodeDocCID).1 = some recipients ∧
        recipients.lookup localNodeDocCID = some localNodeDoc ∧
        recipients.lookup remoteNodeDocCID = some remoteNodeDoc ∧
        ∀ k, k ≠ localNodeDocCID → k ≠ remoteNodeDocCID → recipients.lookup k = none) ∧
    (((RetrieveIDDocFromIPFS codecs ipfs remoteNodeDocCID).err ≠ none ∨
        (RetrieveIDDocFromIPFS codecs ipfs localNodeDocCID).err ≠ none) →
      (BuildRecipientList codecs ipfs localNodeDocCID remoteNodeDocCID).1 = none ∧
      (BuildRecipientList codecs ipfs localNodeDocCID remoteNodeDocCID).2 ≠ none) := by
  unfold BuildRecipientList
  cases hr : RetrieveIDDocFromIPFS codecs ipfs remoteNodeDocCID with
  | failed err => simp [Retrieved.err]
  | decoded remoteNodeDoc rerr =>
    cases rerr with
    | some err => simp [Retrieved.err]
    | none =>
      cases hl : RetrieveIDDocFromIPFS codecs ipfs localNodeDocCID with
      | failed err => simp [Retrieved.err]
      | decoded localNodeDoc lerr =>
        cases lerr with
        | some err => simp [Retrieved.err]
        | none =>
          refine ⟨fun _ => ⟨localNodeDoc, remoteNodeDoc, _, rfl, rfl, rfl, ?_, ?_, ?_⟩, ?_⟩
          · simp [goMapLiteral2, lookup_goMapSet]
          · by_cases h : remoteNodeDocCID = localNodeDocCID
            · rw [h, hl] at hr
              cases hr
              simp [goMapLiteral2, lookup_goMapSet, h]
            · simp [goMapLiteral2, lookup_goMapSet, h]
          · intro k h1 h2
            simp [goMapLiteral2, lookup_goMapSet, h1, h2]
          · simp [Retrieved.err]

/-- C13, at a content store that holds both identity documents, and at one that lacks the
remote one. -/
theorem BuildRecipientList_holds_both_witness :
    (BuildRecipientList fxCodecs fxIpfsDocs "QmNode" "QmMaster").1
      = some [("QmMaster", ⟨[2]⟩), ("QmNode", ⟨[1]⟩)] ∧
    (BuildRecipientList fxCodecs fxIpfsDocs "QmNode" "QmGone").1 = none ∧
    (BuildRecipientList fxCodecs fxIpfsDocs "QmNode" "QmGone").2 ≠ none :=
  ⟨rfl, ((BuildRecipientList_holds_both fxCodecs fxIpfsDocs "QmNode" "QmGone").2
    (Or.inl (by decide))).1,
    ((BuildRecipientList_holds_both fxCodecs fxIpfsDocs "QmNode" "QmGone").2
    (Or.inl (by decide))).2⟩

/-! ## The ledger transactions -/

/-- C14 (the code at the failing input): the transactions that `Order1`, `OrderSecret1` and
`OrderSecret2` hand to `PostToChain` have a nil `Tags` map, while the transaction of
`Order2` carries the reference of the order under `"reference"`. -/
theorem ledger_transactions_lack_reference_tag :
    (Order1 fxPackages fxService fxNow (.ok "ref-new") [] ⟨"QmBeneficiary", none⟩).posted.map
      (fun p => (p.2, p.1.Tags)) = [("Order1", none)] ∧
    (OrderSecret1 fxPackages fxService fxNow fxOrderIndex ⟨"ref-1", "", none⟩).posted.map
      (fun p => (p.2, p.1.Tags)) = [("OrderSecret1", none)] ∧
    (OrderSecret2 fxPackages fxService [] ⟨"QmOrder"⟩).map
      (fun o => o.posted.map (fun p => (p.2, p.1.Tags))) = some [("OrderSecret2", none)] ∧
    (Order2 fxPackages fxService fxNow [] ⟨"QmOrder", none⟩).map
      (fun o => o.posted.map (fun p => (p.2, p.1.Tags)))
      = some [("Order2", some [("reference", "ref-1")])] :=
  ⟨rfl, rfl, rfl, rfl⟩

/-- C15 (the code at the failing input): the ledger refuses every transaction; `Order1`
publishes revision 1, hands its transaction to `PostToChain`, and returns the new reference
with a nil error, while `Order2` returns the error of `PostToChain`. -/
theorem Order1_ignores_ledger_failure :
    (fxPackagesLedgerDown.PostToChain
      ⟨.TXFulfillRequest, "QmNode", ["QmMaster", "QmNode"], [1], none⟩ "Order1").2
      = some ⟨"broadcast failed"⟩ ∧
    (Order1 fxPackagesLedgerDown fxService fxNow (.ok "ref-new") []
      ⟨"QmBeneficiary", none⟩).posted
      = [(⟨.TXFulfillRequest, "QmNode", ["QmMaster", "QmNode"], [1], none⟩, "Order1")] ∧
    memDatastore.Get (Order1 fxPackagesLedgerDown fxService fxNow (.ok "ref-new") []
      ⟨"QmBeneficiary", none⟩).store "order" "ref-new" = .ok "QmNew" ∧
    (Order1 fxPackagesLedgerDown fxService fxNow (.ok "ref-new") []
      ⟨"QmBeneficiary", none⟩).value = "ref-new" ∧
    (Order1 fxPackagesLedgerDown fxService fxNow (.ok "ref-new") []
      ⟨"QmBeneficiary", none⟩).err = none ∧
    (Order2 fxPackagesLedgerDown fxService fxNow [] ⟨"QmOrder", none⟩).map (fun o => o.err)
      = some (some ⟨"broadcast failed"⟩) :=
  ⟨rfl, rfl, rfl, rfl, rfl, rfl⟩

end Milagro
